import Mathlib

/-!
Verification of the ECS core of the N1 browser battle-royale demo.

The definitions below are a shallow embedding of the TypeScript sources:
* `src/src/engine/core/ecs/World.ts` (class `World`)
* the `System` base class and `CameraComponent` file bundle
  (`src/src/engine/core/ecs/components/CameraComponent.ts`)
* `src/src/engine/core/ecs/systems/PhysicsSystem.ts`
* `src/unnamed/part_008` (`Entity`, `WeaponComponent`)
* `src/unnamed/part_009` (`HealthComponent`)
* `src/unnamed/part_010` (`BattleRoyaleSystem`)

Modelling conventions, used consistently below:
* JavaScript `Map`s keyed by entity id are embedded as functions
  `Nat → Option _`; iteration order of those maps is never needed by the
  properties proved here.  The lists the code does iterate
  (`_systems.values()`, the pending-change sets, a system's entity set)
  are embedded as `List`s.
* Entity ids are uuid strings in the source; only freshness matters, so
  ids are embedded as naturals issued by a `nextId` counter.
* `performance.now()` timestamps and all JS numbers appearing in the
  claims are embedded as rationals (`ℚ`); the floating-point values
  involved (9.81, 0.98, 500, …) are exact binary/decimal constants.
* A component instance is represented by its component-type name: no
  property proved here depends on any other field of a component payload.
-/

namespace N1

abbrev ComponentType := String

/-- `Entity` from `src/unnamed/part_008`: id, display name, active flag.
(The `createdAt`/`lastModified` wall-clock timestamps are not touched by
any claim and are omitted.) -/
structure Entity where
  id : Nat
  name : String
  active : Bool
deriving DecidableEq

/-- `Entity.destroy()`: marks the entity inactive. -/
def Entity.destroy (e : Entity) : Entity :=
  { e with active := false }

/-- `SystemQuery` from the `System` base class: the {all, any, none}
component-type filters, each optional. -/
structure SystemQuery where
  all : Option (List ComponentType)
  any : Option (List ComponentType)
  none : Option (List ComponentType)
deriving DecidableEq

/-- The query `{}`: no constraints. -/
def SystemQuery.empty : SystemQuery :=
  ⟨Option.none, Option.none, Option.none⟩

inductive SystemPriority
  | low
  | normal
  | high
  | critical
deriving DecidableEq

/-- `System.matchesQuery` (also duplicated verbatim as `World._matchesQuery`):
`all` types must all be present; if `any` is present and nonempty at least
one of them must be present; no `none` type may be present. -/
def matchesQuery (q : SystemQuery) (entityComponents : List ComponentType) : Bool :=
  (match q.all with
    | Option.none => true
    | Option.some l => l.all (fun t => entityComponents.contains t))
  &&
  (match q.any with
    | Option.none => true
    | Option.some l =>
        if 0 < l.length then l.any (fun t => entityComponents.contains t) else true)
  &&
  (match q.none with
    | Option.none => true
    | Option.some l => l.all (fun t => !(entityComponents.contains t)))

/-- `System` base-class state relevant to the claims: activity flags, the
declared query and the cached membership set (`_entities`).  The
performance counters are not observable by any claim and are omitted. -/
structure System where
  name : String
  priority : SystemPriority
  active : Bool
  enabled : Bool
  query : SystemQuery
  entities : List Nat
deriving DecidableEq

/-- The `System` constructor: fresh systems start active, enabled and
with an empty membership set. -/
def System.new (name : String) (priority : SystemPriority) (query : SystemQuery) : System :=
  ⟨name, priority, true, true, query, []⟩

def System.matchesQuery (s : System) (entityComponents : List ComponentType) : Bool :=
  N1.matchesQuery s.query entityComponents

def System.hasEntity (s : System) (i : Nat) : Bool :=
  s.entities.contains i

/-- `System.addEntity`: insert if absent (the JS `Set.add` plus the
`has` guard around the `onEntityAdded` hook). -/
def System.addEntity (s : System) (i : Nat) : System :=
  if s.entities.contains i then s else { s with entities := s.entities ++ [i] }

/-- `System.removeEntity`: delete from the membership set. -/
def System.removeEntity (s : System) (i : Nat) : System :=
  { s with entities := s.entities.filter (fun j => !(j == i)) }

/-- `System.isActive()`: active and enabled. -/
def System.isActive (s : System) : Bool :=
  s.active && s.enabled

/-! ### Spec-side query semantics (for claim C2)

`specMatches` is written from the specification's words (§3 Query
semantics), not from the code, to be compared with `matchesQuery`:
"`all` — entity must carry every listed component type; `any` — entity
must carry at least one (vacuously true if `any` is empty/absent);
`none` — entity must carry none of the listed types. All three clauses
combine with AND." -/
def specMatches (q : SystemQuery) (C : List ComponentType) : Prop :=
  (∀ l, q.all = Option.some l → ∀ t ∈ l, t ∈ C) ∧
  (q.any = Option.none ∨ q.any = Option.some [] ∨
    ∃ l, q.any = Option.some l ∧ ∃ t ∈ l, t ∈ C) ∧
  (∀ l, q.none = Option.some l → ∀ t ∈ l, t ∉ C)

/-! ### The World (scheduler / orchestrator), `src/src/engine/core/ecs/World.ts`

The `_entities` and `_components` maps are embedded as functions
`Nat → Option _`; `_systems` is kept as the insertion-ordered list that
`this._systems.values()` iterates.  `_systemOrder` (a priority-sorted
copy used only to order the per-frame `update`/`fixedUpdate`/`lateUpdate`
calls) and the performance counters and fixed-timestep accumulator are
omitted: the system passes mutate only system-internal domain and metric
state, which this structural model does not carry (their wrapper
semantics is modelled separately as `runUpdate`/`runFrame` below), and no
claim observes the accumulator. -/

/-- A JS `Set` held as a list: add only when absent. -/
def listInsert (l : List Nat) (i : Nat) : List Nat :=
  if l.contains i then l else l ++ [i]

structure World where
  entities : Nat → Option Entity
  components : Nat → Option (List ComponentType)
  systems : List System
  pendingEntities : List Nat
  pendingRemovals : List Nat
  nextId : Nat

/-- The `World` constructor: everything empty. -/
def World.new : World :=
  ⟨fun _ => Option.none, fun _ => Option.none, [], [], [], 0⟩

def World.getEntity (w : World) (i : Nat) : Option Entity :=
  w.entities i

def World.hasEntity (w : World) (i : Nat) : Bool :=
  (w.entities i).isSome

def World.getComponents (w : World) (i : Nat) : Option (List ComponentType) :=
  w.components i

/-- The component-type set of an entity (the keys of its component map),
defaulting to the empty set for an unknown id. -/
def World.componentTypesOf (w : World) (i : Nat) : List ComponentType :=
  (w.components i).getD []

def World.getComponent (w : World) (i : Nat) (componentType : ComponentType) :
    Option ComponentType :=
  (w.components i).bind
    (fun ts => if ts.contains componentType then Option.some componentType else Option.none)

def World.hasComponent (w : World) (i : Nat) (componentType : ComponentType) : Bool :=
  ((w.components i).map (fun ts => ts.contains componentType)).getD false

/-- `World.createEntity`: a fresh entity (id issued by the counter,
active), an empty component map for it, and the id queued in
`_pendingEntities`.  Returns the entity together with the new world. -/
def World.createEntity (w : World) (name : String) : Entity × World :=
  let e : Entity := ⟨w.nextId, name, true⟩
  (e, { entities := fun j => if j = e.id then Option.some e else w.entities j,
        components := fun j => if j = e.id then Option.some [] else w.components j,
        systems := w.systems,
        pendingEntities := listInsert w.pendingEntities e.id,
        pendingRemovals := w.pendingRemovals,
        nextId := w.nextId + 1 })

/-- `World.destroyEntity`: false for an unknown id; otherwise queue the id
in `_pendingRemovals` and mark the entity inactive (`entity.destroy()`). -/
def World.destroyEntity (w : World) (i : Nat) : Bool × World :=
  match w.entities i with
  | Option.none => (false, w)
  | Option.some e =>
      (true,
        { w with
          pendingRemovals := listInsert w.pendingRemovals i,
          entities := fun j => if j = i then Option.some e.destroy else w.entities j })

/-- The per-system body of `World._notifySystemsOfComponentChange`: add
the entity when it now matches but was absent, remove it when it no
longer matches but was present, else leave the system alone. -/
def syncMembership (i : Nat) (ts : List ComponentType) (s : System) : System :=
  let matched := s.matchesQuery ts
  let hasE := s.hasEntity i
  if matched && !hasE then s.addEntity i
  else if !matched && hasE then s.removeEntity i
  else s

/-- `World._notifySystemsOfComponentChange`: skip unknown or inactive
entities; otherwise recompute every system's membership of this one
entity from its current component-type set. -/
def World.notifySystemsOfComponentChange (w : World) (i : Nat) : World :=
  match w.entities i with
  | Option.none => w
  | Option.some e =>
    if e.active = false then w
    else
      match w.components i with
      | Option.none => w
      | Option.some ts =>
          { w with systems := w.systems.map (syncMembership i ts) }

/-- `World.addComponent`: false for an unknown or inactive entity or a
missing component map; otherwise store the component under its type name
(overwriting keeps the key set unchanged) and notify the systems. -/
def World.addComponent (w : World) (i : Nat) (componentType : ComponentType) :
    Bool × World :=
  match w.entities i with
  | Option.none => (false, w)
  | Option.some e =>
    if e.active = false then (false, w)
    else
      match w.components i with
      | Option.none => (false, w)
      | Option.some ts =>
          let ts' := if ts.contains componentType then ts else ts ++ [componentType]
          let w' := { w with
            components := fun j => if j = i then Option.some ts' else w.components j }
          (true, w'.notifySystemsOfComponentChange i)

/-- `World.removeComponent`: checks only the component map (never the
entity's active flag); false when the entity has no component map or no
component of that type, otherwise delete the key and notify the systems. -/
def World.removeComponent (w : World) (i : Nat) (componentType : ComponentType) :
    Bool × World :=
  match w.components i with
  | Option.none => (false, w)
  | Option.some ts =>
    if ts.contains componentType = false then (false, w)
    else
      let w' := { w with
        components := fun j =>
          if j = i then Option.some (ts.filter (fun t => !(t == componentType)))
          else w.components j }
      (true, w'.notifySystemsOfComponentChange i)

/-- `World.addSystem`: `Map.set` keyed by system name (replace in place
when the name exists, append otherwise). -/
def World.addSystem (w : World) (s : System) : World :=
  { w with
    systems :=
      if w.systems.any (fun x => x.name == s.name) then
        w.systems.map (fun x => if x.name == s.name then s else x)
      else w.systems ++ [s] }

/-- One pending-entity step of the first loop of
`World._processPendingChanges`: if the entity and its component map are
still present (note: no check of the active flag), add it to every
system whose query matches. -/
def World.offerEntityToSystems (w : World) (sysList : List System) (i : Nat) :
    List System :=
  match w.entities i, w.components i with
  | Option.some _, Option.some ts =>
      sysList.map (fun s => if s.matchesQuery ts then s.addEntity i else s)
  | _, _ => sysList

/-- First loop of `World._processPendingChanges`: offer every pending
entity to the systems, then clear the pending set. -/
def World.processPendingAdditions (w : World) : World :=
  { w with
    systems := w.pendingEntities.foldl w.offerEntityToSystems w.systems,
    pendingEntities := [] }

/-- One pending-removal step of the second loop of
`World._processPendingChanges`: remove the id from every system and
purge it from the entity and component maps. -/
def World.purgeEntity (acc : World) (i : Nat) : World :=
  { acc with
    systems := acc.systems.map (fun s => s.removeEntity i),
    entities := fun j => if j = i then Option.none else acc.entities j,
    components := fun j => if j = i then Option.none else acc.components j }

/-- Second loop of `World._processPendingChanges`: purge every pending
removal, then clear the pending set. -/
def World.processPendingRemovals (w : World) : World :=
  { w.pendingRemovals.foldl World.purgeEntity w with pendingRemovals := [] }

/-- `World._processPendingChanges`: additions first, then removals. -/
def World.processPendingChanges (w : World) : World :=
  w.processPendingAdditions.processPendingRemovals

/-- `World.update` restricted to its structural effect: the pending
entity/component changes are resolved at the start of the pass.  The
three system passes that follow touch only system-internal state (see
`runUpdate`/`runFrame`), and the timing statistics are unmodelled. -/
def World.update (w : World) : World :=
  w.processPendingChanges

/-- The action of one pending-entity step on one system (used to reason
about `offerEntityToSystems`, which maps it over the system list). -/
def World.offerOne (w : World) (i : Nat) (s : System) : System :=
  match w.entities i, w.components i with
  | Option.some _, Option.some ts => if s.matchesQuery ts then s.addEntity i else s
  | _, _ => s

/-- Whether the pending-entity step for id `i` would add the entity to a
system with query `q`: both maps still hold the id and the query matches
its component-type set. -/
def World.offerMatches (w : World) (i : Nat) (q : SystemQuery) : Bool :=
  match w.entities i, w.components i with
  | Option.some _, Option.some ts => matchesQuery q ts
  | _, _ => false

/-! ### The `System.update` wrapper and the frame loop (for claim C5)

`System.update` guards on `!active || !enabled || entities.size === 0`
and wraps the abstract `onUpdate` in try/catch.  The domain update is
passed explicitly: it either returns the new domain state or throws,
carrying the state at the throw point (a JS exception does not roll back
the side effects already performed).  `runUpdate` returns the resulting
state together with the number of domain invocations (0 or 1); it is
total, which is the formal content of "the error is caught and does not
propagate".  The performance-timing bookkeeping is not modelled. -/
def runUpdate (σ : Type) (s : System)
    (onUpdate : ℚ → σ → Except (String × σ) σ) (deltaTime : ℚ) (st : σ) :
    σ × Nat :=
  if !s.active || !s.enabled || s.entities.length == 0 then (st, 0)
  else
    match onUpdate deltaTime st with
    | Except.ok st' => (st', 1)
    | Except.error err => (err.2, 1)

/-- One step of the system pass of `World.update`: skip systems that are
not `isActive()`, otherwise run the wrapped update.  The accumulator
carries the domain state and the per-system invocation counts. -/
def frameStep (σ : Type) (deltaTime : ℚ) (acc : σ × List Nat)
    (p : System × (ℚ → σ → Except (String × σ) σ)) : σ × List Nat :=
  if p.1.isActive then
    ((runUpdate σ p.1 p.2 deltaTime acc.1).1,
      acc.2 ++ [(runUpdate σ p.1 p.2 deltaTime acc.1).2])
  else (acc.1, acc.2 ++ [0])

/-- The system pass of `World.update` over the ordered system list. -/
def runFrame (σ : Type) (l : List (System × (ℚ → σ → Except (String × σ) σ)))
    (deltaTime : ℚ) (st : σ) : σ × List Nat :=
  l.foldl (frameStep σ deltaTime) (st, [])

/-! ### `WeaponComponent`, from `src/unnamed/part_008` (for claim C6)

Times are in milliseconds (`performance.now()` passed explicitly);
`updateReload` is not needed by any claim and is omitted. -/

inductive WeaponType
  | pistol
  | rifle
  | shotgun
  | sniper
  | smg
  | lmg
deriving DecidableEq

structure WeaponStats where
  damage : ℚ
  fireRate : ℚ
  range : ℚ
  accuracy : ℚ
  reloadTime : ℚ
  magazineSize : Nat
  projectileSpeed : ℚ
  spread : ℚ
deriving DecidableEq

/-- `WeaponComponent.getWeaponStats`. -/
def getWeaponStats : WeaponType → WeaponStats
  | WeaponType.pistol => ⟨25, 2, 50, 4/5, 3/2, 12, 300, 2⟩
  | WeaponType.rifle => ⟨35, 8, 100, 9/10, 2, 30, 400, 1⟩
  | WeaponType.shotgun => ⟨15, 1, 20, 3/5, 3, 8, 200, 15⟩
  | WeaponType.sniper => ⟨100, 1/2, 200, 19/20, 5/2, 5, 600, 1/2⟩
  | WeaponType.smg => ⟨20, 12, 60, 7/10, 9/5, 25, 350, 3⟩
  | WeaponType.lmg => ⟨30, 10, 120, 3/5, 4, 100, 450, 4⟩

structure WeaponComponent where
  type : WeaponType
  stats : WeaponStats
  currentAmmo : Nat
  totalAmmo : Nat
  lastFireTime : ℚ
  isReloading : Bool
  reloadStartTime : ℚ
deriving DecidableEq

/-- The `WeaponComponent` constructor: a full magazine and three
magazines of reserve. -/
def WeaponComponent.new (type : WeaponType) : WeaponComponent :=
  let stats := getWeaponStats type
  ⟨type, stats, stats.magazineSize, stats.magazineSize * 3, 0, false, 0⟩

/-- `canFire`: not reloading, ammo available, and the fire-rate gate
`now - lastFireTime >= 1000 / fireRate` has elapsed. -/
def WeaponComponent.canFire (wc : WeaponComponent) (currentTime : ℚ) : Bool :=
  !wc.isReloading && decide (0 < wc.currentAmmo) &&
    decide (1000 / wc.stats.fireRate ≤ currentTime - wc.lastFireTime)

/-- `startReload`: a no-op while reloading or with a full magazine. -/
def WeaponComponent.startReload (wc : WeaponComponent) (currentTime : ℚ) :
    WeaponComponent :=
  if wc.isReloading || wc.currentAmmo == wc.stats.magazineSize then wc
  else { wc with isReloading := true, reloadStartTime := currentTime }

/-- `fire`: blocked when `canFire` fails; otherwise decrement the
magazine, record the shot time, and auto-start a reload on empty. -/
def WeaponComponent.fire (wc : WeaponComponent) (currentTime : ℚ) :
    Bool × WeaponComponent :=
  if !(wc.canFire currentTime) then (false, wc)
  else
    let w1 := { wc with currentAmmo := wc.currentAmmo - 1, lastFireTime := currentTime }
    if w1.currentAmmo == 0 then (true, w1.startReload currentTime)
    else (true, w1)

/-! ### `PhysicsSystem.onUpdate` per-entity step, from
`src/src/engine/core/ecs/systems/PhysicsSystem.ts` (for claim C7) -/

structure Vec3 where
  x : ℚ
  y : ℚ
  z : ℚ
deriving DecidableEq

/-- The `PhysicsSystem` gravity constant `-9.81`. -/
def gravity : ℚ := -(981/100)

/-- One entity's Transform position together with its Physics component
(velocity, acceleration, static flag), the state `PhysicsSystem.onUpdate`
reads and writes. -/
structure PhysBody where
  position : Vec3
  velocity : Vec3
  acceleration : Vec3
  isStatic : Bool
deriving DecidableEq

/-- The loop body of `PhysicsSystem.onUpdate` for one non-skipped entity:
set vertical acceleration to gravity, integrate velocity, then either
clamp to the ground plane (position.y := 0, velocity.y := 0, horizontal
position not advanced) when the next y would be negative, or advance the
position; finally apply the 0.98 horizontal friction factor. -/
def physicsStep (deltaTime : ℚ) (b : PhysBody) : PhysBody :=
  if b.isStatic = true then b
  else
    let a : Vec3 := ⟨b.acceleration.x, gravity, b.acceleration.z⟩
    let v : Vec3 := ⟨b.velocity.x + a.x * deltaTime, b.velocity.y + a.y * deltaTime,
      b.velocity.z + a.z * deltaTime⟩
    let nextY : ℚ := b.position.y + v.y * deltaTime
    if nextY < 0 then
      { position := ⟨b.position.x, 0, b.position.z⟩,
        velocity := ⟨v.x * (49/50), 0, v.z * (49/50)⟩,
        acceleration := a,
        isStatic := b.isStatic }
    else
      { position := ⟨b.position.x + v.x * deltaTime, nextY,
          b.position.z + v.z * deltaTime⟩,
        velocity := ⟨v.x * (49/50), v.y, v.z * (49/50)⟩,
        acceleration := a,
        isStatic := b.isStatic }

/-- Grounded: settled on the ground plane. -/
def grounded (b : PhysBody) : Prop :=
  b.position.y = 0 ∧ b.velocity.y = 0

/-! ### `HealthComponent`, from `src/unnamed/part_009` (for claims C8/C9) -/

structure HealthComponent where
  currentHealth : ℚ
  maxHealth : ℚ
  isDead : Bool
  lastDamageTime : ℚ
  invulnerabilityTime : ℚ
deriving DecidableEq

/-- The `HealthComponent` constructor (invulnerability window 500 ms). -/
def HealthComponent.new (maxHealth : ℚ) : HealthComponent :=
  ⟨maxHealth, maxHealth, false, 0, 500⟩

/-- `takeDamage` (`performance.now()` passed as `currentTime`): blocked
inside the invulnerability window with no state change; otherwise deduct
the damage, record the time, and on reaching 0 clamp, set `isDead` and
report the death. -/
def HealthComponent.takeDamage (h : HealthComponent) (damage : ℚ)
    (currentTime : ℚ) : Bool × HealthComponent :=
  if currentTime - h.lastDamageTime < h.invulnerabilityTime then (false, h)
  else
    let h1 := { h with
      currentHealth := h.currentHealth - damage, lastDamageTime := currentTime }
    if h1.currentHealth ≤ 0 then
      (true, { h1 with currentHealth := 0, isDead := true })
    else (false, h1)

/-! ### `BattleRoyaleSystem` zone damage, from `src/unnamed/part_010`
(for claim C8)

`applyZoneDamage` iterates the system's entity set reading each entity's
`BattleRoyaleComponent`, `HealthComponent` and `TransformComponent` and
skipping entities that lack one of them or are already dead; the model
carries the members that have all three (a skipped entity is left
unchanged by the loop).  Zone-phase advancement (`updatePhases`) and the
tick scheduling in `onUpdate` are not needed by the claim and are not
modelled; `applyZoneDamage` is the body of one zone-damage tick. -/

inductive GamePhase
  | waiting
  | dropping
  | active
  | finished
deriving DecidableEq

structure ZonePhase where
  phase : Nat
  center : Vec3
  radius : ℚ
  damage : ℚ
  duration : ℚ
  startTime : ℚ
  endTime : ℚ
deriving DecidableEq

structure BattleRoyaleState where
  phase : GamePhase
  startTime : ℚ
  endTime : Option ℚ
  currentPhase : Nat
  playersAlive : Int
  totalPlayers : Int
  zone : ZonePhase
  safeZone : ZonePhase
  dropZone : Vec3
  winner : Option Nat
deriving DecidableEq

structure BattleRoyaleComponent where
  state : BattleRoyaleState
  placement : Int
  kills : Int
  damageDealt : ℚ
  timeAlive : ℚ
  lastZoneDamage : ℚ
deriving DecidableEq

/-- A member of the `BattleRoyaleSystem` entity set with the three
components the zone-damage tick reads. -/
structure BREntity where
  id : Nat
  br : BattleRoyaleComponent
  health : HealthComponent
  position : Vec3
deriving DecidableEq

/-- `transform.position.distance(zone.center) > zone.radius`, expressed
without the square root: for d = √distSq ≥ 0 and any radius r,
d > r ↔ r < 0 ∨ r·r < distSq. -/
def outsideZone (pos : Vec3) (z : ZonePhase) : Bool :=
  decide (z.radius < 0) ||
    decide (z.radius * z.radius <
      (pos.x - z.center.x) ^ 2 + (pos.y - z.center.y) ^ 2 + (pos.z - z.center.z) ^ 2)

/-- `BattleRoyaleSystem.findWinner`: the first entity in the system's
iteration order whose health is present and not dead. -/
def findWinner (entities : List BREntity) : Option Nat :=
  (entities.find? (fun p => !p.health.isDead)).map (fun p => p.id)

/-- `BattleRoyaleSystem.endGame`, mutating the eliminated player's own
component: phase := finished, endTime := now, and when a winner is found,
record it (and set placement 1 on this component). -/
def endGame (br : BattleRoyaleComponent) (entities : List BREntity) (now : ℚ) :
    BattleRoyaleComponent :=
  let br1 := { br with state := { br.state with
    phase := GamePhase.finished, endTime := Option.some now } }
  match findWinner entities with
  | Option.some winnerId =>
      { br1 with
        state := { br1.state with winner := Option.some winnerId },
        placement := 1 }
  | Option.none => br1

/-- `BattleRoyaleSystem.handlePlayerElimination`: placement := the
pre-decrement alive count, decrement `playersAlive`, and end the game
when at most one player remains. -/
def handlePlayerElimination (br : BattleRoyaleComponent) (entities : List BREntity)
    (now : ℚ) : BattleRoyaleComponent :=
  let br1 := { br with
    placement := br.state.playersAlive,
    state := { br.state with playersAlive := br.state.playersAlive - 1 } }
  if br1.state.playersAlive ≤ 1 then endGame br1 entities now else br1

/-- One iteration of the `applyZoneDamage` loop, for the entity at
position `k` of the system's entity list: skip dead entities, apply
`zone.damage` through `takeDamage` to entities outside the zone radius,
and on death run the elimination bookkeeping (which reads the already
updated health states, as the JS mutation does). -/
def applyZoneDamageStep (now : ℚ) (entities : List BREntity) (k : Nat) :
    List BREntity :=
  match entities.get? k with
  | Option.none => entities
  | Option.some p =>
    if p.health.isDead then entities
    else if outsideZone p.position p.br.state.zone then
      let r := p.health.takeDamage p.br.state.zone.damage now
      let entities1 := entities.set k { p with health := r.2 }
      if r.1 then
        entities1.set k { p with
          health := r.2,
          br := handlePlayerElimination p.br entities1 now }
      else entities1
    else entities

/-- `BattleRoyaleSystem.applyZoneDamage`: one zone-damage tick over the
system's entity list, in iteration order. -/
def applyZoneDamage (now : ℚ) (entities : List BREntity) : List BREntity :=
  (List.range entities.length).foldl (applyZoneDamageStep now) entities

/-- Scenario for the C6 counterexample: a pistol with a single round. -/
def wit6weapon : WeaponComponent :=
  { WeaponComponent.new WeaponType.pistol with currentAmmo := 1 }

/-- Scenario for the C6 witness: a fresh pistol (12-round magazine). -/
def wit6pistol : WeaponComponent :=
  WeaponComponent.new WeaponType.pistol

/-- Scenario zone for C8: radius 10, damage 5 per tick. -/
def wit8zone : ZonePhase :=
  ⟨1, ⟨0, 0, 0⟩, 10, 5, 180000, 0, 0⟩

def wit8brstate : BattleRoyaleState :=
  ⟨GamePhase.active, 0, Option.none, 0, 2, 2, wit8zone, wit8zone, ⟨0, 0, 0⟩,
    Option.none⟩

def wit8br : BattleRoyaleComponent :=
  ⟨wit8brstate, 0, 0, 0, 0, 0⟩

/-- C8 counterexample entity: outside the zone, alive, but damaged
100 ms ago — still inside the 500 ms invulnerability window. -/
def wit8blocked : BREntity :=
  ⟨0, wit8br, { HealthComponent.new 100 with
    currentHealth := 50,
    lastDamageTime := 900 }, ⟨20, 0, 0⟩⟩

/-- C8 witness: a player outside the zone about to die to the tick. -/
def wit8dying : BREntity :=
  ⟨0, wit8br, { HealthComponent.new 100 with currentHealth := 3 }, ⟨20, 0, 0⟩⟩

/-- C8 witness: the surviving player, inside the zone. -/
def wit8alive : BREntity :=
  ⟨1, wit8br, HealthComponent.new 100, ⟨0, 0, 0⟩⟩

/-! ### The membership-consistency invariant (for claim C1)

`Inv` is the inductive invariant maintained by all world operations once
every system has been registered: settled active entities are members of
exactly the systems whose query matches their component-type set, pending
active entities are members only of systems whose query matches (the
update pass then completes the addition), system membership sets contain
only ids of entities still in the registry, issued ids stay below the
counter, the entity and component maps share their domain, and ids queued
for removal belong to inactive entities. -/
structure Inv (w : World) : Prop where
  settled : ∀ i e, w.entities i = Option.some e → e.active = true →
    w.pendingEntities.contains i = false →
    ∀ s ∈ w.systems, s.hasEntity i = s.matchesQuery (w.componentTypesOf i)
  pendingSub : ∀ i e, w.entities i = Option.some e → e.active = true →
    w.pendingEntities.contains i = true →
    ∀ s ∈ w.systems, s.hasEntity i = true →
      s.matchesQuery (w.componentTypesOf i) = true
  memExists : ∀ s ∈ w.systems, ∀ i, s.hasEntity i = true →
    (w.entities i).isSome = true
  idBound : ∀ i, (w.entities i).isSome = true → i < w.nextId
  compDom : ∀ i, (w.components i).isSome = (w.entities i).isSome
  remInactive : ∀ i, w.pendingRemovals.contains i = true →
    ∀ e, w.entities i = Option.some e → e.active = false
  remBound : ∀ i, w.pendingRemovals.contains i = true → i < w.nextId

/-- The registration phase: systems (fresh from the `System` constructor)
are added to an otherwise empty world. -/
inductive Setup : World → Prop where
  | new : Setup World.new
  | addSystem : ∀ {w : World} (n : String) (p : SystemPriority) (q : SystemQuery),
      Setup w → Setup (w.addSystem (System.new n p q))

/-- Worlds reachable from a completed registration phase through the
public entity/component lifecycle calls and `update`. -/
inductive Reach : World → Prop where
  | setup : ∀ {w : World}, Setup w → Reach w
  | createEntity : ∀ {w : World} (n : String), Reach w → Reach (w.createEntity n).2
  | destroyEntity : ∀ {w : World} (i : Nat), Reach w → Reach (w.destroyEntity i).2
  | addComponent : ∀ {w : World} (i : Nat) (t : ComponentType), Reach w →
      Reach (w.addComponent i t).2
  | removeComponent : ∀ {w : World} (i : Nat) (t : ComponentType), Reach w →
      Reach (w.removeComponent i t).2
  | update : ∀ {w : World}, Reach w → Reach w.update

/-! ### Witness and counterexample scenarios -/

/-- Scenario for the C3 witness: one registered system with an
unconstrained query, one entity, one settling update. -/
def destroyScene : World :=
  ((World.new.addSystem
      (System.new "S" SystemPriority.normal SystemQuery.empty)).createEntity "E").2.update


/-- Scenario for C10: a settled entity with component "T", then destroyed
(marked inactive) but not yet purged. -/
def inactiveScene : World :=
  ((((World.new.addSystem (System.new "S" SystemPriority.normal
      ⟨Option.some ["T"], Option.none, Option.none⟩)).createEntity
      "E").2.addComponent 0 "T").2.update.destroyEntity 0).2

/-- Scenario for C4: one registered system with an unconstrained query,
one entity created and destroyed before the next update. -/
def ghostScene : World :=
  (((World.new.addSystem
      (System.new "S" SystemPriority.normal SystemQuery.empty)).createEntity
      "E").2.destroyEntity 0).2

/-- Scenario for the C1 witness: one system registered first, then an
entity with component "A". -/
def c1Scene : World :=
  (((World.new.addSystem (System.new "S" SystemPriority.normal
      ⟨Option.some ["A"], Option.none, Option.none⟩)).createEntity
      "E").2.addComponent 0 "A").2

/-- Scenario for the C1 counterexample: an entity settles with component
"A", then a matching system is registered, then one more update runs. -/
def lateSystemScene : World :=
  ((((World.new.createEntity "E").2.addComponent 0 "A").2.update).addSystem
    (System.new "Late" SystemPriority.normal
      ⟨Option.some ["A"], Option.none, Option.none⟩)).update

/-! ### Theorems -/

theorem all_clause_iff (o : Option (List ComponentType)) (C : List ComponentType) :
    (match o with
      | Option.none => true
      | Option.some l => l.all (fun t => C.contains t)) = true ↔
      (∀ l, o = Option.some l → ∀ t ∈ l, t ∈ C) := by
  cases o <;> simp [List.all_eq_true, List.contains, List.elem_iff]

theorem any_clause_iff (o : Option (List ComponentType)) (C : List ComponentType) :
    (match o with
      | Option.none => true
      | Option.some l =>
          if 0 < l.length then l.any (fun t => C.contains t) else true) = true ↔
      (o = Option.none ∨ o = Option.some [] ∨
        ∃ l, o = Option.some l ∧ ∃ t ∈ l, t ∈ C) := by
  cases o with
  | none => simp
  | some l =>
    cases l with
    | nil => simp
    | cons x xs =>
      simp [List.any_eq_true, List.contains, List.elem_iff]

theorem none_clause_iff (o : Option (List ComponentType)) (C : List ComponentType) :
    (match o with
      | Option.none => true
      | Option.some l => l.all (fun t => !(C.contains t))) = true ↔
      (∀ l, o = Option.some l → ∀ t ∈ l, t ∉ C) := by
  cases o <;> simp [List.all_eq_true, List.contains, List.elem_iff]

theorem matchesQuery_eq_specMatches (q : SystemQuery) (C : List ComponentType) :
    matchesQuery q C = true ↔ specMatches q C := by
  unfold matchesQuery specMatches
  simp only [Bool.and_eq_true]
  rw [all_clause_iff, any_clause_iff, none_clause_iff, and_assoc]

/-- C2: `matchesQuery` implements exactly the {all, any, none} semantics
of the spec (`all` conjunctive, `any` disjunctive and vacuous when
absent or empty, `none` negative, the three clauses ANDed), and the
spec's concrete examples hold: an entity carrying {A, B} matches
`{all:[A,B]}`, does not match `{all:[A,B,C]}`, matches `{any:[C,A]}`,
and does not match `{none:[B]}`. -/
theorem queries_match_spec :
    (∀ q C, matchesQuery q C = true ↔ specMatches q C) ∧
    matchesQuery ⟨Option.some ["A", "B"], Option.none, Option.none⟩ ["A", "B"] = true ∧
    matchesQuery ⟨Option.some ["A", "B", "C"], Option.none, Option.none⟩ ["A", "B"] = false ∧
    matchesQuery ⟨Option.none, Option.some ["C", "A"], Option.none⟩ ["A", "B"] = true ∧
    matchesQuery ⟨Option.none, Option.none, Option.some ["B"]⟩ ["A", "B"] = false := by
  refine ⟨matchesQuery_eq_specMatches, by decide, by decide, by decide, by decide⟩

/-! ### Basic lemmas about the membership primitives -/

theorem contains_append_singleton {α : Type} [BEq α] [LawfulBEq α]
    (l : List α) (i j : α) :
    (l ++ [j]).contains i = (l.contains i || (i == j)) := by
  induction l with
  | nil =>
    show List.elem i [j] = (false || (i == j))
    rw [Bool.false_or]
    cases h : i == j <;> simp [List.elem, h]
  | cons x xs ih =>
    rw [List.cons_append]
    rw [show ((x :: (xs ++ [j])).contains i) = ((i == x) || (xs ++ [j]).contains i) from rfl]
    rw [show ((x :: xs).contains i) = ((i == x) || xs.contains i) from rfl]
    rw [ih, Bool.or_assoc]

theorem contains_filter_ne {α : Type} [BEq α] [LawfulBEq α] (l : List α) (i j : α) :
    (l.filter (fun x => !(x == j))).contains i = (l.contains i && !(i == j)) := by
  by_cases hij : i = j
  · subst hij
    simp [List.contains, List.elem_iff, List.mem_filter]
  · have : (!(i == j)) = true := by simp [hij]
    simp [List.contains, List.elem_iff, List.mem_filter, hij]

@[simp]
theorem System.query_addEntity (s : System) (i : Nat) :
    (s.addEntity i).query = s.query := by
  unfold System.addEntity; split <;> rfl

@[simp]
theorem System.query_removeEntity (s : System) (i : Nat) :
    (s.removeEntity i).query = s.query := rfl

@[simp]
theorem System.name_addEntity (s : System) (i : Nat) :
    (s.addEntity i).name = s.name := by
  unfold System.addEntity; split <;> rfl

@[simp]
theorem System.name_removeEntity (s : System) (i : Nat) :
    (s.removeEntity i).name = s.name := rfl

theorem System.hasEntity_addEntity (s : System) (i j : Nat) :
    (s.addEntity j).hasEntity i = (s.hasEntity i || (i == j)) := by
  unfold System.addEntity System.hasEntity
  split
  · rename_i hmem
    by_cases hij : i = j
    · subst hij; simp [List.elem_iff.mp hmem]
    · simp [hij]
  · exact contains_append_singleton _ _ _

theorem System.hasEntity_removeEntity (s : System) (i j : Nat) :
    (s.removeEntity j).hasEntity i = (s.hasEntity i && !(i == j)) := by
  unfold System.removeEntity System.hasEntity
  exact contains_filter_ne _ _ _

theorem listInsert_contains (l : List Nat) (i j : Nat) :
    (listInsert l i).contains j = (l.contains j || (j == i)) := by
  unfold listInsert
  split
  · rename_i hmem
    by_cases hji : j = i
    · subst hji; simp [List.elem_iff.mp hmem]
    · simp [hji]
  · exact contains_append_singleton _ _ _

/-! ### Characterizing the two loops of `_processPendingChanges` -/

theorem foldl_removeEntity_query (l : List Nat) (s : System) :
    (l.foldl System.removeEntity s).query = s.query := by
  induction l generalizing s with
  | nil => rfl
  | cons j rest ih => simpa using ih (s.removeEntity j)

theorem foldl_removeEntity_name (l : List Nat) (s : System) :
    (l.foldl System.removeEntity s).name = s.name := by
  induction l generalizing s with
  | nil => rfl
  | cons j rest ih => simpa using ih (s.removeEntity j)

theorem foldl_removeEntity_hasEntity (l : List Nat) (s : System) (i : Nat) :
    (l.foldl System.removeEntity s).hasEntity i = (s.hasEntity i && !(l.contains i)) := by
  induction l generalizing s with
  | nil => simp [List.foldl]
  | cons j rest ih =>
    rw [List.foldl_cons, ih, System.hasEntity_removeEntity]
    rw [show ((j :: rest).contains i) = ((i == j) || rest.contains i) from rfl]
    simp [Bool.and_assoc]

/-- The purge fold in one description: final entity map, component map,
systems, and untouched fields. -/
theorem purge_foldl_spec (l : List Nat) (w : World) :
    (∀ j, (l.foldl World.purgeEntity w).entities j =
        (if l.contains j then Option.none else w.entities j)) ∧
    (∀ j, (l.foldl World.purgeEntity w).components j =
        (if l.contains j then Option.none else w.components j)) ∧
    (l.foldl World.purgeEntity w).systems =
        w.systems.map (fun s => l.foldl System.removeEntity s) ∧
    (l.foldl World.purgeEntity w).pendingEntities = w.pendingEntities ∧
    (l.foldl World.purgeEntity w).pendingRemovals = w.pendingRemovals ∧
    (l.foldl World.purgeEntity w).nextId = w.nextId := by
  induction l generalizing w with
  | nil => simp [List.foldl]
  | cons i rest ih =>
    obtain ⟨he, hc, hs, hp, hr, hn⟩ := ih (w.purgeEntity i)
    rw [List.foldl_cons]
    refine ⟨?_, ?_, ?_, hp, hr, hn⟩
    · intro j
      rw [he j]
      rw [show ((i :: rest).contains j) = ((j == i) || rest.contains j) from rfl]
      by_cases hji : j = i <;> by_cases hjr : rest.contains j = true <;>
        simp [World.purgeEntity, hji, hjr]
    · intro j
      rw [hc j]
      rw [show ((i :: rest).contains j) = ((j == i) || rest.contains j) from rfl]
      by_cases hji : j = i <;> by_cases hjr : rest.contains j = true <;>
        simp [World.purgeEntity, hji, hjr]
    · rw [hs]
      show (w.systems.map (fun s => s.removeEntity i)).map _ = _
      rw [List.map_map]
      rfl

theorem syncMembership_query (i : Nat) (ts : List ComponentType) (s : System) :
    (syncMembership i ts s).query = s.query := by
  cases hm : s.matchesQuery ts <;> cases hh : s.hasEntity i <;>
    simp [syncMembership, hm, hh]

theorem syncMembership_hasEntity_self (i : Nat) (ts : List ComponentType) (s : System) :
    (syncMembership i ts s).hasEntity i = s.matchesQuery ts := by
  cases hm : s.matchesQuery ts <;> cases hh : s.hasEntity i <;>
    simp [syncMembership, hm, hh, System.hasEntity_addEntity,
      System.hasEntity_removeEntity]

theorem syncMembership_hasEntity_ne (i : Nat) (ts : List ComponentType) (s : System)
    (j : Nat) (hne : (j == i) = false) :
    (syncMembership i ts s).hasEntity j = s.hasEntity j := by
  cases hm : s.matchesQuery ts <;> cases hh : s.hasEntity i <;>
    simp [syncMembership, hm, hh, System.hasEntity_addEntity,
      System.hasEntity_removeEntity, hne]

theorem offerOne_query (w : World) (i : Nat) (s : System) :
    (w.offerOne i s).query = s.query := by
  unfold World.offerOne
  cases w.entities i <;> cases w.components i <;> try rfl
  all_goals split <;> split <;> (first | rfl | simp)

theorem offerOne_name (w : World) (i : Nat) (s : System) :
    (w.offerOne i s).name = s.name := by
  unfold World.offerOne
  cases w.entities i <;> cases w.components i <;> try rfl
  all_goals split <;> split <;> (first | rfl | simp)

theorem offerOne_hasEntity (w : World) (i : Nat) (s : System) (e : Nat) :
    (w.offerOne i s).hasEntity e =
      (s.hasEntity e || ((e == i) && w.offerMatches i s.query)) := by
  unfold World.offerOne World.offerMatches
  cases w.entities i <;> cases w.components i <;> try simp
  split <;> rename_i hm <;>
    simp [System.hasEntity_addEntity, System.matchesQuery] at hm ⊢ <;> simp [hm]

theorem foldl_offerOne_query (w : World) (l : List Nat) (s : System) :
    (l.foldl (fun s i => w.offerOne i s) s).query = s.query := by
  induction l generalizing s with
  | nil => rfl
  | cons j rest ih => rw [List.foldl_cons, ih, offerOne_query]

theorem foldl_offerOne_name (w : World) (l : List Nat) (s : System) :
    (l.foldl (fun s i => w.offerOne i s) s).name = s.name := by
  induction l generalizing s with
  | nil => rfl
  | cons j rest ih => rw [List.foldl_cons, ih, offerOne_name]

theorem foldl_offerOne_hasEntity (w : World) (l : List Nat) (s : System) (e : Nat) :
    (l.foldl (fun s i => w.offerOne i s) s).hasEntity e =
      (s.hasEntity e || (l.contains e && w.offerMatches e s.query)) := by
  induction l generalizing s with
  | nil => simp
  | cons j rest ih =>
    rw [List.foldl_cons, ih, offerOne_hasEntity, offerOne_query]
    rw [show ((j :: rest).contains e) = ((e == j) || rest.contains e) from rfl]
    by_cases hej : e = j
    · subst hej
      simp only [beq_self_eq_true, Bool.true_and, Bool.true_or]
      cases s.hasEntity e <;> cases w.offerMatches e s.query <;>
        cases rest.contains e <;> rfl
    · have hne : (e == j) = false := by simp [hej]
      rw [hne]
      simp

theorem offerEntityToSystems_eq_map (w : World) (sysList : List System) (i : Nat) :
    w.offerEntityToSystems sysList i = sysList.map (w.offerOne i) := by
  unfold World.offerEntityToSystems World.offerOne
  cases w.entities i <;> cases w.components i <;> simp

theorem foldl_offer_systems (w : World) (l : List Nat) (sys : List System) :
    l.foldl w.offerEntityToSystems sys =
      sys.map (fun s => l.foldl (fun s i => w.offerOne i s) s) := by
  induction l generalizing sys with
  | nil => simp
  | cons j rest ih =>
    rw [List.foldl_cons, offerEntityToSystems_eq_map, ih, List.map_map]
    rfl

theorem processPendingAdditions_systems (w : World) :
    w.processPendingAdditions.systems =
      w.systems.map (fun s => w.pendingEntities.foldl (fun s i => w.offerOne i s) s) := by
  show w.pendingEntities.foldl w.offerEntityToSystems w.systems = _
  exact foldl_offer_systems w _ _

theorem processPendingAdditions_entities (w : World) :
    w.processPendingAdditions.entities = w.entities := rfl

theorem processPendingAdditions_components (w : World) :
    w.processPendingAdditions.components = w.components := rfl

theorem processPendingAdditions_pendingRemovals (w : World) :
    w.processPendingAdditions.pendingRemovals = w.pendingRemovals := rfl

/-- Any id queued in `_pendingRemovals` is fully purged by the next
`update`: gone from both maps and from every system's membership set. -/
theorem update_purges (w : World) (i : Nat)
    (h : w.pendingRemovals.contains i = true) :
    w.update.entities i = Option.none ∧
    w.update.components i = Option.none ∧
    (∀ s ∈ w.update.systems, s.hasEntity i = false) := by
  have spec := purge_foldl_spec w.processPendingAdditions.pendingRemovals
    w.processPendingAdditions
  obtain ⟨he, hc, hs, -, -, -⟩ := spec
  have hpr : w.processPendingAdditions.pendingRemovals = w.pendingRemovals := rfl
  refine ⟨?_, ?_, ?_⟩
  · show (w.processPendingAdditions.pendingRemovals.foldl World.purgeEntity
      w.processPendingAdditions).entities i = Option.none
    rw [he i, hpr, h]
    rfl
  · show (w.processPendingAdditions.pendingRemovals.foldl World.purgeEntity
      w.processPendingAdditions).components i = Option.none
    rw [hc i, hpr, h]
    rfl
  · intro s hsmem
    have : s ∈ (w.processPendingAdditions.pendingRemovals.foldl World.purgeEntity
        w.processPendingAdditions).systems := hsmem
    rw [hs] at this
    obtain ⟨s₀, -, rfl⟩ := List.mem_map.mp this
    rw [foldl_removeEntity_hasEntity, hpr, h]
    simp

/-- C3: destroying an entity whose id is present returns true (also when
the entity was already marked inactive by an earlier `destroyEntity`);
after one `update` the entity is gone from every system's membership
set, `hasEntity` is false, `getComponent` is absent for every component
type, and a further `destroyEntity` returns false. -/
theorem destroy_then_update_purges (w : World) (i : Nat)
    (hpresent : (w.entities i).isSome = true) :
    (w.destroyEntity i).1 = true ∧
    (w.destroyEntity i).2.update.hasEntity i = false ∧
    (∀ s ∈ (w.destroyEntity i).2.update.systems, s.hasEntity i = false) ∧
    (∀ t, (w.destroyEntity i).2.update.getComponent i t = Option.none) ∧
    ((w.destroyEntity i).2.update.destroyEntity i).1 = false := by
  obtain ⟨e, he⟩ := Option.isSome_iff_exists.mp hpresent
  have hfst : (w.destroyEntity i).1 = true := by
    unfold World.destroyEntity
    rw [he]
  have hqueued : (w.destroyEntity i).2.pendingRemovals.contains i = true := by
    unfold World.destroyEntity
    rw [he]
    show (listInsert w.pendingRemovals i).contains i = true
    rw [listInsert_contains]
    simp
  obtain ⟨hent, hcomp, hsys⟩ := update_purges (w.destroyEntity i).2 i hqueued
  refine ⟨hfst, ?_, hsys, ?_, ?_⟩
  · unfold World.hasEntity
    rw [hent]
    rfl
  · intro t
    unfold World.getComponent
    rw [hcomp]
    rfl
  · generalize hgen : (w.destroyEntity i).2.update = W at hent ⊢
    unfold World.destroyEntity
    rw [hent]

theorem destroy_then_update_purges_witness :
    (destroyScene.entities 0).isSome = true ∧
    (destroyScene.destroyEntity 0).1 = true ∧
    (destroyScene.destroyEntity 0).2.update.hasEntity 0 = false ∧
    ((destroyScene.destroyEntity 0).2.update.systems.all
      (fun s => !(s.hasEntity 0))) = true ∧
    (destroyScene.destroyEntity 0).2.update.getComponent 0 "TransformComponent" =
      Option.none ∧
    ((destroyScene.destroyEntity 0).2.update.destroyEntity 0).1 = false := by
  have h := destroy_then_update_purges destroyScene 0 (by decide)
  refine ⟨by decide, h.1, h.2.1, ?_, h.2.2.2.1 "TransformComponent", h.2.2.2.2⟩
  rw [List.all_eq_true]
  intro s hsmem
  rw [h.2.2.1 s hsmem]
  rfl

/-- `_notifySystemsOfComponentChange` is a no-op on an inactive entity. -/
theorem notify_inactive (w : World) (i : Nat) (e : Entity)
    (he : w.entities i = Option.some e) (hact : e.active = false) :
    w.notifySystemsOfComponentChange i = w := by
  unfold World.notifySystemsOfComponentChange
  rw [he]
  simp only [hact, if_pos]

/-- C10: `removeComponent` never consults the entity's active flag: on an
entity already marked inactive (destroyed but not yet purged) that still
carries a component of type `t`, it returns true and deletes the
component, while `addComponent` on the same inactive entity returns false
and changes nothing; and no system membership is recomputed, because
`_notifySystemsOfComponentChange` skips inactive entities. -/
theorem removeComponent_inactive (w : World) (i : Nat) (e : Entity)
    (t c : ComponentType) (ts : List ComponentType)
    (he : w.entities i = Option.some e) (hact : e.active = false)
    (hc : w.components i = Option.some ts) (hmem : ts.contains t = true) :
    (w.removeComponent i t).1 = true ∧
    (w.removeComponent i t).2.getComponent i t = Option.none ∧
    (w.removeComponent i t).2.components i =
      Option.some (ts.filter (fun x => !(x == t))) ∧
    (w.removeComponent i t).2.systems = w.systems ∧
    (w.addComponent i c).1 = false ∧
    (w.addComponent i c).2 = w := by
  have hrc : w.removeComponent i t =
      (true, { w with
        components := fun j =>
          if j = i then Option.some (ts.filter (fun x => !(x == t)))
          else w.components j }) := by
    unfold World.removeComponent
    rw [hc]
    simp only [hmem]
    exact congrArg (fun x => (true, x)) (notify_inactive _ i e he hact)
  have hac : w.addComponent i c = (false, w) := by
    unfold World.addComponent
    rw [he]
    simp only [hact, if_pos]
  refine ⟨by rw [hrc], ?_, ?_, by rw [hrc], by rw [hac], by rw [hac]⟩
  · rw [hrc]
    unfold World.getComponent
    show ((if i = i then Option.some (ts.filter (fun x => !(x == t)))
      else w.components i).bind
      (fun l => if l.contains t then Option.some t else Option.none)) = Option.none
    rw [if_pos rfl]
    show (if (ts.filter (fun x => !(x == t))).contains t = true then Option.some t
      else Option.none) = Option.none
    rw [contains_filter_ne]
    simp
  · rw [hrc]
    show (if i = i then Option.some (ts.filter (fun x => !(x == t)))
      else w.components i) = _
    rw [if_pos rfl]

theorem removeComponent_inactive_witness :
    (inactiveScene.entities 0 = Option.some ⟨0, "E", false⟩ ∧
      inactiveScene.components 0 = Option.some ["T"] ∧
      (["T"] : List ComponentType).contains "T" = true) ∧
    (inactiveScene.removeComponent 0 "T").1 = true ∧
    (inactiveScene.removeComponent 0 "T").2.getComponent 0 "T" = Option.none ∧
    (inactiveScene.removeComponent 0 "T").2.systems = inactiveScene.systems ∧
    (inactiveScene.addComponent 0 "X").1 = false ∧
    (inactiveScene.addComponent 0 "X").2 = inactiveScene := by
  have h := removeComponent_inactive inactiveScene 0 ⟨0, "E", false⟩ "T" "X" ["T"]
    (by decide) (by decide) (by decide) (by decide)
  exact ⟨⟨by decide, by decide, by decide⟩, h.1, h.2.1, h.2.2.2.1, h.2.2.2.2.1,
    h.2.2.2.2.2⟩

/-- C4 counterexample: an entity created and then destroyed before the
next update does reach a system during that update: in the addition
phase of `_processPendingChanges` the system's `addEntity` is invoked
for it (its membership set transiently contains the entity), because the
addition loop never checks the active flag and runs before the removal
loop; only afterwards is the entity purged. -/
theorem created_destroyed_reaches_system_cex :
    ghostScene.pendingEntities.contains 0 = true ∧
    ghostScene.pendingRemovals.contains 0 = true ∧
    ghostScene.processPendingAdditions.systems.any (fun s => s.hasEntity 0) = true ∧
    ghostScene.update.hasEntity 0 = false ∧
    ghostScene.update.systems.all (fun s => !(s.hasEntity 0)) = true := by
  decide

/-- C4 (amended): an entity created and destroyed before the next update
is purged by that update (gone from both maps and from every system's
membership set after the update); however, during the update's addition
phase every system whose query matches the entity's component set does
receive an `addEntity` call for it (its membership set transiently
contains the entity), before the removal phase removes it. -/
theorem created_destroyed_purged (w : World) (i : Nat)
    (hpend : w.pendingEntities.contains i = true)
    (hrem : w.pendingRemovals.contains i = true) :
    (w.update.entities i = Option.none ∧
     w.update.components i = Option.none ∧
     (∀ s ∈ w.update.systems, s.hasEntity i = false)) ∧
    (∀ s ∈ w.systems, w.offerMatches i s.query = true →
      ∃ s' ∈ w.processPendingAdditions.systems,
        s'.name = s.name ∧ s'.query = s.query ∧ s'.hasEntity i = true) := by
  refine ⟨update_purges w i hrem, ?_⟩
  intro s hs hmatch
  refine ⟨w.pendingEntities.foldl (fun s i => w.offerOne i s) s, ?_, ?_, ?_, ?_⟩
  · rw [processPendingAdditions_systems]
    exact List.mem_map_of_mem _ hs
  · exact foldl_offerOne_name w _ s
  · exact foldl_offerOne_query w _ s
  · rw [foldl_offerOne_hasEntity, hpend, hmatch]
    simp

theorem created_destroyed_purged_witness :
    (ghostScene.pendingEntities.contains 0 = true ∧
      ghostScene.pendingRemovals.contains 0 = true) ∧
    ghostScene.update.entities 0 = Option.none ∧
    ghostScene.update.components 0 = Option.none ∧
    ghostScene.update.systems.all (fun s => !(s.hasEntity 0)) = true ∧
    ghostScene.processPendingAdditions.systems.any (fun s => s.hasEntity 0) = true := by
  have h := created_destroyed_purged ghostScene 0 (by decide) (by decide)
  refine ⟨⟨by decide, by decide⟩, h.1.1, h.1.2.1, ?_, ?_⟩
  · rw [List.all_eq_true]
    intro s hsmem
    rw [h.1.2.2 s hsmem]
    rfl
  · obtain ⟨s', hs'mem, -, -, hhas⟩ :=
      h.2 (System.new "S" SystemPriority.normal SystemQuery.empty) (by decide) (by decide)
    rw [List.any_eq_true]
    exact ⟨s', hs'mem, hhas⟩

/-- C1 counterexample: `World.addSystem` never scans already-settled
entities, so for a system registered after an entity has settled, an
empty change-sequence followed by one `World.update` leaves the system's
membership inconsistent with `matchesQuery`: the entity is live and its
component set matches the late system's query, yet `hasEntity` is false. -/
theorem ecs_membership_late_system_cex :
    (lateSystemScene.entities 0).isSome = true ∧
    ((lateSystemScene.entities 0).map Entity.active) = Option.some true ∧
    lateSystemScene.systems.any
      (fun s => s.matchesQuery (lateSystemScene.componentTypesOf 0) &&
        !(s.hasEntity 0)) = true := by
  decide

/-! ### Descriptions of each operation's result -/

theorem createEntity_snd (w : World) (n : String) :
    (w.createEntity n).2 =
      { entities := fun j =>
          if j = w.nextId then Option.some ⟨w.nextId, n, true⟩ else w.entities j,
        components := fun j =>
          if j = w.nextId then Option.some [] else w.components j,
        systems := w.systems,
        pendingEntities := listInsert w.pendingEntities w.nextId,
        pendingRemovals := w.pendingRemovals,
        nextId := w.nextId + 1 } := rfl

theorem destroyEntity_of_none (w : World) (i : Nat)
    (he : w.entities i = Option.none) : w.destroyEntity i = (false, w) := by
  unfold World.destroyEntity
  rw [he]

theorem destroyEntity_of_some (w : World) (i : Nat) (e : Entity)
    (he : w.entities i = Option.some e) :
    w.destroyEntity i =
      (true, { w with
        pendingRemovals := listInsert w.pendingRemovals i,
        entities := fun j =>
          if j = i then Option.some e.destroy else w.entities j }) := by
  unfold World.destroyEntity
  rw [he]

theorem notify_of_active (w : World) (i : Nat) (e : Entity) (ts : List ComponentType)
    (he : w.entities i = Option.some e) (hact : e.active = true)
    (hc : w.components i = Option.some ts) :
    w.notifySystemsOfComponentChange i =
      { w with systems := w.systems.map (syncMembership i ts) } := by
  unfold World.notifySystemsOfComponentChange
  rw [he]
  simp only [hact]
  rw [if_neg (by decide : ¬(true = false))]
  rw [hc]

theorem addComponent_of_none (w : World) (i : Nat) (t : ComponentType)
    (he : w.entities i = Option.none) : w.addComponent i t = (false, w) := by
  unfold World.addComponent
  rw [he]

theorem addComponent_of_inactive (w : World) (i : Nat) (t : ComponentType) (e : Entity)
    (he : w.entities i = Option.some e) (hact : e.active = false) :
    w.addComponent i t = (false, w) := by
  unfold World.addComponent
  rw [he]
  simp only [hact, if_pos]

theorem addComponent_of_active (w : World) (i : Nat) (t : ComponentType) (e : Entity)
    (ts : List ComponentType) (he : w.entities i = Option.some e)
    (hact : e.active = true) (hc : w.components i = Option.some ts) :
    w.addComponent i t =
      (true, { w with
        components := fun j =>
          if j = i then Option.some (if ts.contains t then ts else ts ++ [t])
          else w.components j,
        systems :=
          w.systems.map (syncMembership i (if ts.contains t then ts else ts ++ [t])) }) := by
  unfold World.addComponent
  rw [he]
  simp only [hact]
  rw [if_neg (by decide : ¬(true = false))]
  rw [hc]
  refine congrArg (fun x => (true, x)) ?_
  exact notify_of_active _ i e _ he hact (if_pos rfl)

theorem removeComponent_of_noMap (w : World) (i : Nat) (t : ComponentType)
    (hc : w.components i = Option.none) : w.removeComponent i t = (false, w) := by
  unfold World.removeComponent
  rw [hc]

theorem removeComponent_of_missing (w : World) (i : Nat) (t : ComponentType)
    (ts : List ComponentType) (hc : w.components i = Option.some ts)
    (hmem : ts.contains t = false) : w.removeComponent i t = (false, w) := by
  unfold World.removeComponent
  rw [hc]
  simp only [hmem, if_pos]

theorem removeComponent_of_present_active (w : World) (i : Nat) (t : ComponentType)
    (e : Entity) (ts : List ComponentType) (he : w.entities i = Option.some e)
    (hact : e.active = true) (hc : w.components i = Option.some ts)
    (hmem : ts.contains t = true) :
    w.removeComponent i t =
      (true, { w with
        components := fun j =>
          if j = i then Option.some (ts.filter (fun x => !(x == t)))
          else w.components j,
        systems := w.systems.map (syncMembership i (ts.filter (fun x => !(x == t)))) }) := by
  unfold World.removeComponent
  rw [hc]
  simp only [hmem]
  refine congrArg (fun x => (true, x)) ?_
  exact notify_of_active _ i e _ he hact (if_pos rfl)

theorem removeComponent_of_present_inactive (w : World) (i : Nat) (t : ComponentType)
    (e : Entity) (ts : List ComponentType) (he : w.entities i = Option.some e)
    (hact : e.active = false) (hc : w.components i = Option.some ts)
    (hmem : ts.contains t = true) :
    w.removeComponent i t =
      (true, { w with
        components := fun j =>
          if j = i then Option.some (ts.filter (fun x => !(x == t)))
          else w.components j }) := by
  unfold World.removeComponent
  rw [hc]
  simp only [hmem]
  exact congrArg (fun x => (true, x)) (notify_inactive _ i e he hact)

/-! ### The registration phase establishes the invariant -/

theorem setup_state (w : World) (h : Setup w) :
    (∀ i, w.entities i = Option.none) ∧ (∀ i, w.components i = Option.none) ∧
    w.pendingEntities = [] ∧ w.pendingRemovals = [] ∧
    (∀ s ∈ w.systems, s.entities = []) := by
  induction h with
  | new =>
    exact ⟨fun _ => rfl, fun _ => rfl, rfl, rfl,
      fun s hs => absurd hs (List.not_mem_nil s)⟩
  | addSystem n p q hw ih =>
    obtain ⟨he, hc, hp, hr, hs⟩ := ih
    refine ⟨he, hc, hp, hr, ?_⟩
    intro s hsmem
    unfold World.addSystem at hsmem
    simp only at hsmem
    split at hsmem
    · obtain ⟨x, hxmem, hxeq⟩ := List.mem_map.mp hsmem
      split at hxeq
      · rw [← hxeq]
        rfl
      · rw [← hxeq]
        exact hs x hxmem
    · rcases List.mem_append.mp hsmem with h1 | h2
      · exact hs s h1
      · rw [List.mem_singleton] at h2
        rw [h2]
        rfl

theorem setup_inv (w : World) (h : Setup w) : Inv w := by
  obtain ⟨he, hc, hp, hr, hs⟩ := setup_state w h
  constructor
  · intro i e hei
    rw [he i] at hei
    cases hei
  · intro i e hei
    rw [he i] at hei
    cases hei
  · intro s hsmem i hhas
    rw [System.hasEntity, hs s hsmem] at hhas
    cases hhas
  · intro i hi
    rw [he i] at hi
    cases hi
  · intro i
    rw [he i, hc i]
    rfl
  · intro i hin
    rw [hr] at hin
    cases hin
  · intro i hin
    rw [hr] at hin
    cases hin

/-! ### The invariant is preserved by every world operation -/

theorem inv_createEntity (w : World) (n : String) (hw : Inv w) :
    Inv (w.createEntity n).2 := by
  have hent : ∀ j, (w.createEntity n).2.entities j =
      (if j = w.nextId then Option.some ⟨w.nextId, n, true⟩ else w.entities j) :=
    fun j => rfl
  have hcomp : ∀ j, (w.createEntity n).2.components j =
      (if j = w.nextId then Option.some [] else w.components j) := fun j => rfl
  have hsys : (w.createEntity n).2.systems = w.systems := rfl
  have hpend : (w.createEntity n).2.pendingEntities =
      listInsert w.pendingEntities w.nextId := rfl
  have hrem : (w.createEntity n).2.pendingRemovals = w.pendingRemovals := rfl
  have hnext : (w.createEntity n).2.nextId = w.nextId + 1 := rfl
  have hctypes : ∀ j, j ≠ w.nextId →
      (w.createEntity n).2.componentTypesOf j = w.componentTypesOf j := by
    intro j hj
    unfold World.componentTypesOf
    rw [hcomp j, if_neg hj]
  constructor
  case settled =>
    intro i e hei hact hpendc s hs
    rw [hent i] at hei
    rw [hpend, listInsert_contains] at hpendc
    rw [hsys] at hs
    by_cases hiN : i = w.nextId
    · exfalso
      rw [hiN] at hpendc
      simp at hpendc
    · have h2 : (i == w.nextId) = false := by simp [hiN]
      rw [h2, Bool.or_false] at hpendc
      rw [if_neg hiN] at hei
      rw [hctypes i hiN]
      exact hw.settled i e hei hact hpendc s hs
  case pendingSub =>
    intro i e hei hact hpendc s hs hhas
    rw [hent i] at hei
    rw [hsys] at hs
    by_cases hiN : i = w.nextId
    · exfalso
      have hsome := hw.memExists s hs i hhas
      have hb := hw.idBound i hsome
      rw [hiN] at hb
      exact lt_irrefl _ hb
    · rw [if_neg hiN] at hei
      rw [hctypes i hiN]
      rw [hpend, listInsert_contains] at hpendc
      have h2 : (i == w.nextId) = false := by simp [hiN]
      rw [h2, Bool.or_false] at hpendc
      exact hw.pendingSub i e hei hact hpendc s hs hhas
  case memExists =>
    intro s hs i hhas
    rw [hsys] at hs
    have hsome := hw.memExists s hs i hhas
    rw [hent i]
    by_cases hiN : i = w.nextId
    · rw [if_pos hiN]
      rfl
    · rw [if_neg hiN]
      exact hsome
  case idBound =>
    intro i hi
    rw [hent i] at hi
    rw [hnext]
    by_cases hiN : i = w.nextId
    · rw [hiN]
      exact Nat.lt_succ_self _
    · rw [if_neg hiN] at hi
      exact Nat.lt_succ_of_lt (hw.idBound i hi)
  case compDom =>
    intro i
    rw [hent i, hcomp i]
    by_cases hiN : i = w.nextId
    · rw [if_pos hiN, if_pos hiN]
      rfl
    · rw [if_neg hiN, if_neg hiN]
      exact hw.compDom i
  case remInactive =>
    intro i hin e hei
    rw [hrem] at hin
    rw [hent i] at hei
    by_cases hiN : i = w.nextId
    · exfalso
      have hb := hw.remBound i hin
      rw [hiN] at hb
      exact lt_irrefl _ hb
    · rw [if_neg hiN] at hei
      exact hw.remInactive i hin e hei
  case remBound =>
    intro i hin
    rw [hrem] at hin
    rw [hnext]
    exact Nat.lt_succ_of_lt (hw.remBound i hin)

theorem inv_destroyEntity (w : World) (i : Nat) (hw : Inv w) :
    Inv (w.destroyEntity i).2 := by
  cases he : w.entities i with
  | none =>
    rw [destroyEntity_of_none w i he]
    exact hw
  | some e =>
    have hd := destroyEntity_of_some w i e he
    have hent : ∀ j, (w.destroyEntity i).2.entities j =
        (if j = i then Option.some e.destroy else w.entities j) := fun j => by rw [hd]
    have hcomp : ∀ j, (w.destroyEntity i).2.components j = w.components j :=
      fun j => by rw [hd]
    have hsys : (w.destroyEntity i).2.systems = w.systems := by rw [hd]
    have hpend : (w.destroyEntity i).2.pendingEntities = w.pendingEntities := by rw [hd]
    have hrem : (w.destroyEntity i).2.pendingRemovals =
        listInsert w.pendingRemovals i := by rw [hd]
    have hnext : (w.destroyEntity i).2.nextId = w.nextId := by rw [hd]
    have hctypes : ∀ j, (w.destroyEntity i).2.componentTypesOf j =
        w.componentTypesOf j := by
      intro j
      unfold World.componentTypesOf
      rw [hcomp j]
    have hdestAct : e.destroy.active = false := rfl
    constructor
    case settled =>
      intro j e' hej hact hpendc s hs
      rw [hsys] at hs
      rw [hpend] at hpendc
      rw [hctypes j]
      rw [hent j] at hej
      by_cases hji : j = i
      · exfalso
        rw [if_pos hji] at hej
        injection hej with hej'
        rw [← hej', hdestAct] at hact
        cases hact
      · rw [if_neg hji] at hej
        exact hw.settled j e' hej hact hpendc s hs
    case pendingSub =>
      intro j e' hej hact hpendc s hs hhas
      rw [hsys] at hs
      rw [hpend] at hpendc
      rw [hctypes j]
      rw [hent j] at hej
      by_cases hji : j = i
      · exfalso
        rw [if_pos hji] at hej
        injection hej with hej'
        rw [← hej', hdestAct] at hact
        cases hact
      · rw [if_neg hji] at hej
        exact hw.pendingSub j e' hej hact hpendc s hs hhas
    case memExists =>
      intro s hs j hhas
      rw [hsys] at hs
      have hsome := hw.memExists s hs j hhas
      rw [hent j]
      by_cases hji : j = i
      · rw [if_pos hji]
        rfl
      · rw [if_neg hji]
        exact hsome
    case idBound =>
      intro j hj
      rw [hent j] at hj
      rw [hnext]
      by_cases hji : j = i
      · rw [hji]
        exact hw.idBound i (by rw [he]; rfl)
      · rw [if_neg hji] at hj
        exact hw.idBound j hj
    case compDom =>
      intro j
      rw [hcomp j, hent j]
      by_cases hji : j = i
      · rw [if_pos hji, hji, hw.compDom i, he]
        rfl
      · rw [if_neg hji]
        exact hw.compDom j
    case remInactive =>
      intro j hin e' hej
      rw [hrem, listInsert_contains] at hin
      rw [hent j] at hej
      by_cases hji : j = i
      · rw [if_pos hji] at hej
        injection hej with hej'
        rw [← hej']
        rfl
      · rw [if_neg hji] at hej
        have h2 : (j == i) = false := by simp [hji]
        rw [h2, Bool.or_false] at hin
        exact hw.remInactive j hin e' hej
    case remBound =>
      intro j hin
      rw [hrem, listInsert_contains] at hin
      rw [hnext]
      by_cases hji : j = i
      · rw [hji]
        exact hw.idBound i (by rw [he]; rfl)
      · have h2 : (j == i) = false := by simp [hji]
        rw [h2, Bool.or_false] at hin
        exact hw.remBound j hin

theorem syncMembership_matchesQuery (i : Nat) (ts : List ComponentType) (s : System)
    (X : List ComponentType) :
    (syncMembership i ts s).matchesQuery X = s.matchesQuery X := by
  unfold System.matchesQuery
  rw [syncMembership_query]

/-- `Inv` is preserved by the combined effect of a component-map write at
an active entity followed by `_notifySystemsOfComponentChange`. -/
theorem inv_sync_general (w w' : World) (i : Nat) (e : Entity)
    (ts' : List ComponentType)
    (he : w.entities i = Option.some e) (_hact : e.active = true) (hw : Inv w)
    (hEnt : w'.entities = w.entities)
    (hComp : ∀ j, w'.components j =
      (if j = i then Option.some ts' else w.components j))
    (hSys : w'.systems = w.systems.map (syncMembership i ts'))
    (hPend : w'.pendingEntities = w.pendingEntities)
    (hRem : w'.pendingRemovals = w.pendingRemovals)
    (hNext : w'.nextId = w.nextId) :
    Inv w' := by
  have hty : ∀ j, w'.componentTypesOf j =
      (if j = i then ts' else w.componentTypesOf j) := by
    intro j
    unfold World.componentTypesOf
    rw [hComp j]
    by_cases hji : j = i
    · rw [if_pos hji, if_pos hji]
      rfl
    · rw [if_neg hji, if_neg hji]
  constructor
  case settled =>
    intro j e' hej hact' hpendc s' hs'
    rw [hEnt] at hej
    rw [hPend] at hpendc
    rw [hSys] at hs'
    obtain ⟨s, hs, rfl⟩ := List.mem_map.mp hs'
    rw [hty j, syncMembership_matchesQuery]
    by_cases hji : j = i
    · subst hji
      rw [if_pos rfl, syncMembership_hasEntity_self]
    · rw [if_neg hji]
      have hne : (j == i) = false := by simp [hji]
      rw [syncMembership_hasEntity_ne i ts' s j hne]
      exact hw.settled j e' hej hact' hpendc s hs
  case pendingSub =>
    intro j e' hej hact' hpendc s' hs' hhas
    rw [hEnt] at hej
    rw [hPend] at hpendc
    rw [hSys] at hs'
    obtain ⟨s, hs, rfl⟩ := List.mem_map.mp hs'
    rw [hty j, syncMembership_matchesQuery]
    by_cases hji : j = i
    · subst hji
      rw [if_pos rfl]
      rw [syncMembership_hasEntity_self] at hhas
      exact hhas
    · rw [if_neg hji]
      have hne : (j == i) = false := by simp [hji]
      rw [syncMembership_hasEntity_ne i ts' s j hne] at hhas
      exact hw.pendingSub j e' hej hact' hpendc s hs hhas
  case memExists =>
    intro s' hs' j hhas
    rw [hSys] at hs'
    obtain ⟨s, hs, rfl⟩ := List.mem_map.mp hs'
    rw [hEnt]
    by_cases hji : j = i
    · rw [hji, he]
      rfl
    · have hne : (j == i) = false := by simp [hji]
      rw [syncMembership_hasEntity_ne i ts' s j hne] at hhas
      exact hw.memExists s hs j hhas
  case idBound =>
    intro j hj
    rw [hEnt] at hj
    rw [hNext]
    exact hw.idBound j hj
  case compDom =>
    intro j
    rw [hComp j, hEnt]
    by_cases hji : j = i
    · rw [if_pos hji, hji, he]
      rfl
    · rw [if_neg hji]
      exact hw.compDom j
  case remInactive =>
    intro j hin e' hej
    rw [hRem] at hin
    rw [hEnt] at hej
    exact hw.remInactive j hin e' hej
  case remBound =>
    intro j hin
    rw [hRem] at hin
    rw [hNext]
    exact hw.remBound j hin

/-- `Inv` is preserved by a component-map write at an inactive entity
(no notification happens, so the systems are untouched). -/
theorem inv_setComponents_inactive (w w' : World) (i : Nat) (e : Entity)
    (ts' : List ComponentType)
    (he : w.entities i = Option.some e) (hact : e.active = false) (hw : Inv w)
    (hEnt : w'.entities = w.entities)
    (hComp : ∀ j, w'.components j =
      (if j = i then Option.some ts' else w.components j))
    (hSys : w'.systems = w.systems)
    (hPend : w'.pendingEntities = w.pendingEntities)
    (hRem : w'.pendingRemovals = w.pendingRemovals)
    (hNext : w'.nextId = w.nextId) :
    Inv w' := by
  have hty : ∀ j, j ≠ i → w'.componentTypesOf j = w.componentTypesOf j := by
    intro j hji
    unfold World.componentTypesOf
    rw [hComp j, if_neg hji]
  constructor
  case settled =>
    intro j e' hej hact' hpendc s hs
    rw [hEnt] at hej
    rw [hPend] at hpendc
    rw [hSys] at hs
    by_cases hji : j = i
    · exfalso
      rw [hji, he] at hej
      injection hej with h'
      rw [← h', hact] at hact'
      cases hact'
    · rw [hty j hji]
      exact hw.settled j e' hej hact' hpendc s hs
  case pendingSub =>
    intro j e' hej hact' hpendc s hs hhas
    rw [hEnt] at hej
    rw [hPend] at hpendc
    rw [hSys] at hs
    by_cases hji : j = i
    · exfalso
      rw [hji, he] at hej
      injection hej with h'
      rw [← h', hact] at hact'
      cases hact'
    · rw [hty j hji]
      exact hw.pendingSub j e' hej hact' hpendc s hs hhas
  case memExists =>
    intro s hs j hhas
    rw [hSys] at hs
    rw [hEnt]
    exact hw.memExists s hs j hhas
  case idBound =>
    intro j hj
    rw [hEnt] at hj
    rw [hNext]
    exact hw.idBound j hj
  case compDom =>
    intro j
    rw [hComp j, hEnt]
    by_cases hji : j = i
    · rw [if_pos hji, hji, he]
      rfl
    · rw [if_neg hji]
      exact hw.compDom j
  case remInactive =>
    intro j hin e' hej
    rw [hRem] at hin
    rw [hEnt] at hej
    exact hw.remInactive j hin e' hej
  case remBound =>
    intro j hin
    rw [hRem] at hin
    rw [hNext]
    exact hw.remBound j hin

theorem inv_addComponent (w : World) (i : Nat) (t : ComponentType) (hw : Inv w) :
    Inv (w.addComponent i t).2 := by
  cases he : w.entities i with
  | none =>
    rw [addComponent_of_none w i t he]
    exact hw
  | some e =>
    cases hact : e.active with
    | false =>
      rw [addComponent_of_inactive w i t e he hact]
      exact hw
    | true =>
      cases hc : w.components i with
      | none =>
        exfalso
        have hcd := hw.compDom i
        rw [hc, he] at hcd
        cases hcd
      | some ts =>
        have hd := addComponent_of_active w i t e ts he hact hc
        exact inv_sync_general w (w.addComponent i t).2 i e
          (if ts.contains t then ts else ts ++ [t]) he hact hw
          (by rw [hd]) (fun j => by rw [hd]) (by rw [hd]) (by rw [hd])
          (by rw [hd]) (by rw [hd])

theorem inv_removeComponent (w : World) (i : Nat) (t : ComponentType) (hw : Inv w) :
    Inv (w.removeComponent i t).2 := by
  cases hc : w.components i with
  | none =>
    rw [removeComponent_of_noMap w i t hc]
    exact hw
  | some ts =>
    cases hmem : ts.contains t with
    | false =>
      rw [removeComponent_of_missing w i t ts hc hmem]
      exact hw
    | true =>
      have hsome : (w.entities i).isSome = true := by
        rw [← hw.compDom i, hc]
        rfl
      obtain ⟨e, he⟩ := Option.isSome_iff_exists.mp hsome
      cases hact : e.active with
      | true =>
        have hd := removeComponent_of_present_active w i t e ts he hact hc hmem
        exact inv_sync_general w (w.removeComponent i t).2 i e
          (ts.filter (fun x => !(x == t))) he hact hw
          (by rw [hd]) (fun j => by rw [hd]) (by rw [hd]) (by rw [hd])
          (by rw [hd]) (by rw [hd])
      | false =>
        have hd := removeComponent_of_present_inactive w i t e ts he hact hc hmem
        exact inv_setComponents_inactive w (w.removeComponent i t).2 i e
          (ts.filter (fun x => !(x == t))) he hact hw
          (by rw [hd]) (fun j => by rw [hd]) (by rw [hd]) (by rw [hd])
          (by rw [hd]) (by rw [hd])

theorem eq_false_of_not_true {b : Bool} (h : ¬(b = true)) : b = false := by
  cases b with
  | false => rfl
  | true => exact absurd rfl h

theorem update_entities (w : World) (j : Nat) :
    w.update.entities j =
      (if w.pendingRemovals.contains j then Option.none else w.entities j) := by
  obtain ⟨he, -, -, -, -, -⟩ := purge_foldl_spec
    w.processPendingAdditions.pendingRemovals w.processPendingAdditions
  exact he j

theorem update_components (w : World) (j : Nat) :
    w.update.components j =
      (if w.pendingRemovals.contains j then Option.none else w.components j) := by
  obtain ⟨-, hc, -, -, -, -⟩ := purge_foldl_spec
    w.processPendingAdditions.pendingRemovals w.processPendingAdditions
  exact hc j

theorem update_systems (w : World) :
    w.update.systems = w.systems.map (fun s =>
      w.pendingRemovals.foldl System.removeEntity
        (w.pendingEntities.foldl (fun s i => w.offerOne i s) s)) := by
  obtain ⟨-, -, hs, -, -, -⟩ := purge_foldl_spec
    w.processPendingAdditions.pendingRemovals w.processPendingAdditions
  have h1 : w.update.systems =
      w.processPendingAdditions.systems.map (fun s =>
        w.processPendingAdditions.pendingRemovals.foldl System.removeEntity s) := hs
  rw [h1, processPendingAdditions_systems, List.map_map]
  rfl

theorem update_pendingEntities (w : World) : w.update.pendingEntities = [] := by
  obtain ⟨-, -, -, hp, -, -⟩ := purge_foldl_spec
    w.processPendingAdditions.pendingRemovals w.processPendingAdditions
  exact hp

theorem update_pendingRemovals (w : World) : w.update.pendingRemovals = [] := rfl

theorem update_nextId (w : World) : w.update.nextId = w.nextId := by
  obtain ⟨-, -, -, -, -, hn⟩ := purge_foldl_spec
    w.processPendingAdditions.pendingRemovals w.processPendingAdditions
  exact hn

theorem offerMatches_isSome (w : World) (j : Nat) (q : SystemQuery)
    (h : w.offerMatches j q = true) : (w.entities j).isSome = true := by
  unfold World.offerMatches at h
  cases he2 : w.entities j with
  | some e => rfl
  | none =>
    rw [he2] at h
    cases hc2 : w.components j <;> rw [hc2] at h <;> simp at h

theorem inv_update (w : World) (hw : Inv w) : Inv w.update := by
  constructor
  case settled =>
    intro j e hej hact hpendc s' hs'
    rw [update_entities] at hej
    by_cases hjr : w.pendingRemovals.contains j = true
    · rw [if_pos hjr] at hej
      cases hej
    · have hjrf : w.pendingRemovals.contains j = false := eq_false_of_not_true hjr
      rw [if_neg hjr] at hej
      have hctypes : w.update.componentTypesOf j = w.componentTypesOf j := by
        unfold World.componentTypesOf
        rw [update_components, if_neg hjr]
      rw [hctypes]
      rw [update_systems] at hs'
      obtain ⟨s, hs, rfl⟩ := List.mem_map.mp hs'
      have hqr : (w.pendingRemovals.foldl System.removeEntity
          (w.pendingEntities.foldl (fun s i => w.offerOne i s) s)).matchesQuery
            (w.componentTypesOf j) = s.matchesQuery (w.componentTypesOf j) := by
        unfold System.matchesQuery
        rw [foldl_removeEntity_query, foldl_offerOne_query]
      rw [hqr]
      rw [foldl_removeEntity_hasEntity, hjrf, foldl_offerOne_hasEntity]
      simp only [Bool.not_false, Bool.and_true]
      by_cases hjp : w.pendingEntities.contains j = true
      · rw [hjp, Bool.true_and]
        have hcsome : (w.components j).isSome = true := by
          rw [hw.compDom j, hej]
          rfl
        obtain ⟨ts, hts⟩ := Option.isSome_iff_exists.mp hcsome
        have hom : w.offerMatches j s.query = matchesQuery s.query ts := by
          unfold World.offerMatches
          rw [hej, hts]
        have hctj : w.componentTypesOf j = ts := by
          unfold World.componentTypesOf
          rw [hts]
          rfl
        rw [hom, hctj]
        have hps := hw.pendingSub j e hej hact hjp s hs
        rw [hctj] at hps
        unfold System.matchesQuery at hps ⊢
        cases hh : s.hasEntity j with
        | false => rw [Bool.false_or]
        | true =>
          rw [Bool.true_or]
          exact (hps hh).symm
      · have hjpf : w.pendingEntities.contains j = false := eq_false_of_not_true hjp
        rw [hjpf, Bool.false_and, Bool.or_false]
        exact hw.settled j e hej hact hjpf s hs
  case pendingSub =>
    intro j e hej hact hpendc s' hs' hhas
    rw [update_pendingEntities] at hpendc
    simp at hpendc
  case memExists =>
    intro s' hs' j hhas
    rw [update_systems] at hs'
    obtain ⟨s, hs, rfl⟩ := List.mem_map.mp hs'
    rw [foldl_removeEntity_hasEntity, Bool.and_eq_true] at hhas
    obtain ⟨hin, hnr⟩ := hhas
    rw [foldl_offerOne_hasEntity] at hin
    have hnotr : w.pendingRemovals.contains j = false := by
      cases hx : w.pendingRemovals.contains j with
      | false => rfl
      | true => rw [hx] at hnr; cases hnr
    rw [update_entities]
    rw [if_neg (fun h => by rw [hnotr] at h; cases h)]
    cases hh : s.hasEntity j with
    | true => exact hw.memExists s hs j hh
    | false =>
      rw [hh, Bool.false_or, Bool.and_eq_true] at hin
      exact offerMatches_isSome w j _ hin.2
  case idBound =>
    intro j hj
    rw [update_entities] at hj
    rw [update_nextId]
    by_cases hjr : w.pendingRemovals.contains j = true
    · rw [if_pos hjr] at hj
      simp at hj
    · rw [if_neg hjr] at hj
      exact hw.idBound j hj
  case compDom =>
    intro j
    rw [update_entities, update_components]
    by_cases hjr : w.pendingRemovals.contains j = true
    · rw [if_pos hjr, if_pos hjr]
      rfl
    · rw [if_neg hjr, if_neg hjr]
      exact hw.compDom j
  case remInactive =>
    intro j hin e hej
    rw [update_pendingRemovals] at hin
    simp at hin
  case remBound =>
    intro j hin
    rw [update_pendingRemovals] at hin
    simp at hin

theorem reach_inv (w : World) (h : Reach w) : Inv w := by
  induction h with
  | setup hs => exact setup_inv _ hs
  | createEntity n hr ih => exact inv_createEntity _ n ih
  | destroyEntity i hr ih => exact inv_destroyEntity _ i ih
  | addComponent i t hr ih => exact inv_addComponent _ i t ih
  | removeComponent i t hr ih => exact inv_removeComponent _ i t ih
  | update hr ih => exact inv_update _ ih

/-- C1 (amended): in any world reachable from a registration phase in
which every system is added before entity/component operations begin,
after any sequence of `addComponent`/`removeComponent` calls followed by
one `World.update`, every live (present and active) entity is a member of
exactly those registered systems whose query matches its current
component-type set.  (The restriction to systems registered up front is
forced: `addSystem` does not scan existing entities — see the
counterexample.) -/
theorem ecs_membership_consistency (w : World) (hw : Reach w) (i : Nat) (e : Entity)
    (he : w.update.entities i = Option.some e) (hact : e.active = true) :
    ∀ s ∈ w.update.systems,
      s.hasEntity i = s.matchesQuery (w.update.componentTypesOf i) := by
  have hinv := reach_inv _ (Reach.update hw)
  have hpe : w.update.pendingEntities.contains i = false := by
    rw [update_pendingEntities]
    rfl
  exact hinv.settled i e he hact hpe

theorem ecs_membership_consistency_witness :
    c1Scene.update.entities 0 = Option.some ⟨0, "E", true⟩ ∧
    c1Scene.update.systems.all
      (fun s => s.hasEntity 0 ==
        s.matchesQuery (c1Scene.update.componentTypesOf 0)) = true ∧
    c1Scene.update.systems.any (fun s => s.hasEntity 0) = true := by
  have hreach : Reach c1Scene :=
    Reach.addComponent 0 "A" (Reach.createEntity "E" (Reach.setup
      (Setup.addSystem "S" SystemPriority.normal
        ⟨Option.some ["A"], Option.none, Option.none⟩ Setup.new)))
  have h := ecs_membership_consistency c1Scene hreach 0 ⟨0, "E", true⟩
    (by decide) rfl
  refine ⟨by decide, ?_, by decide⟩
  rw [List.all_eq_true]
  intro s hsmem
  rw [h s hsmem]
  simp

/-! ### C5: update guard and error isolation -/

theorem runUpdate_count (σ : Type) (s : System)
    (f : ℚ → σ → Except (String × σ) σ) (dt : ℚ) (st : σ) :
    (runUpdate σ s f dt st).2 =
      (if s.active && s.enabled && !(s.entities.isEmpty) then 1 else 0) := by
  unfold runUpdate
  cases ha : s.active <;> cases hb : s.enabled <;> cases hl : s.entities <;>
    simp [ha, hb, hl] <;>
    (try (cases hf : f dt st <;> rfl))

/-- C5: `System.update(dt)` is a no-op returning an unchanged state with
zero domain invocations when the system is inactive, disabled, or has no
matching entities; otherwise it invokes the domain update exactly once;
and because the wrapper catches any thrown error (`runUpdate` is total
and returns the at-throw state rather than propagating), the frame loop
reaches every system: each system's invocation count depends only on its
own guard, regardless of errors thrown by other systems' updates. -/
theorem system_update_guard_and_isolation (σ : Type) :
    (∀ (s : System) (f : ℚ → σ → Except (String × σ) σ) (dt : ℚ) (st : σ),
      (s.active = false ∨ s.enabled = false ∨ s.entities = []) →
        runUpdate σ s f dt st = (st, 0)) ∧
    (∀ (s : System) (f : ℚ → σ → Except (String × σ) σ) (dt : ℚ) (st : σ),
      s.active = true → s.enabled = true → s.entities ≠ [] →
        (runUpdate σ s f dt st).2 = 1) ∧
    (∀ (l : List (System × (ℚ → σ → Except (String × σ) σ))) (dt : ℚ) (st : σ),
      (runFrame σ l dt st).2 = l.map (fun p =>
        if p.1.active && p.1.enabled && !(p.1.entities.isEmpty) then 1 else 0)) := by
  refine ⟨?_, ?_, ?_⟩
  · intro s f dt st h
    unfold runUpdate
    rcases h with h | h | h <;> rw [h] <;> simp
  · intro s f dt st ha hb hl
    rw [runUpdate_count σ s f dt st, ha, hb]
    have hemp : s.entities.isEmpty = false := by
      cases he : s.entities with
      | nil => exact absurd he hl
      | cons a l => rfl
    rw [hemp]
    rfl
  · intro l dt st
    suffices haux : ∀ (l : List (System × (ℚ → σ → Except (String × σ) σ)))
        (st : σ) (acc : List Nat),
        (l.foldl (frameStep σ dt) (st, acc)).2 = acc ++ l.map (fun p =>
          if p.1.active && p.1.enabled && !(p.1.entities.isEmpty) then 1 else 0) by
      unfold runFrame
      rw [haux l st []]
      rfl
    intro l
    induction l with
    | nil =>
      intro st acc
      simp [List.foldl]
    | cons p rest ih =>
      intro st acc
      rw [List.foldl_cons]
      by_cases hA : p.1.isActive = true
      · rw [show frameStep σ dt (st, acc) p =
            ((runUpdate σ p.1 p.2 dt st).1, acc ++ [(runUpdate σ p.1 p.2 dt st).2])
          from by unfold frameStep; rw [if_pos hA]]
        rw [ih, runUpdate_count, List.map_cons, List.append_assoc]
        rfl
      · have hA' : p.1.isActive = false := eq_false_of_not_true hA
        rw [show frameStep σ dt (st, acc) p = (st, acc ++ [0])
          from by unfold frameStep; rw [hA']; simp]
        rw [ih, List.map_cons, List.append_assoc]
        have hcond : (p.1.active && p.1.enabled && !(p.1.entities.isEmpty)) = false := by
          unfold System.isActive at hA'
          cases hx : p.1.active <;> cases hy : p.1.enabled <;>
            rw [hx, hy] at hA' <;> simp [hx, hy] <;> cases hA'
        rw [hcond]
        rfl

def wit5sysA : System :=
  ⟨"A", SystemPriority.normal, true, true, SystemQuery.empty, [1]⟩

def wit5sysB : System :=
  ⟨"B", SystemPriority.normal, true, true, SystemQuery.empty, [2]⟩

def wit5sysOff : System :=
  ⟨"C", SystemPriority.normal, true, false, SystemQuery.empty, [3]⟩

def wit5throw : ℚ → Nat → Except (String × Nat) Nat :=
  fun _ n => Except.error ("boom", n + 1)

def wit5ok : ℚ → Nat → Except (String × Nat) Nat :=
  fun _ n => Except.ok (n + 10)

theorem system_update_guard_and_isolation_witness :
    runUpdate Nat wit5sysOff wit5throw 1 0 = (0, 0) ∧
    (runUpdate Nat wit5sysA wit5throw 1 0).2 = 1 ∧
    (runFrame Nat [(wit5sysA, wit5throw), (wit5sysOff, wit5ok), (wit5sysB, wit5ok)]
      1 0).2 = [1, 0, 1] := by
  obtain ⟨hguard, honce, hframe⟩ := system_update_guard_and_isolation Nat
  refine ⟨hguard _ _ _ _ (Or.inr (Or.inl rfl)),
    honce _ _ _ _ rfl rfl (by simp [wit5sysA]), ?_⟩
  rw [hframe]
  rfl

/-! ### C9: the invulnerability window -/

theorem takeDamage_blocked (h : HealthComponent) (d t : ℚ)
    (hwin : t - h.lastDamageTime < h.invulnerabilityTime) :
    h.takeDamage d t = (false, h) := by
  unfold HealthComponent.takeDamage
  rw [if_pos hwin]

/-- The result of a non-blocked `takeDamage` call, in closed form. -/
theorem takeDamage_applied (h : HealthComponent) (d1 t1 : ℚ)
    (happlied : h.invulnerabilityTime ≤ t1 - h.lastDamageTime) :
    h.takeDamage d1 t1 =
      (if h.currentHealth - d1 ≤ 0 then
        ((true : Bool),
          ({ h with
             currentHealth := 0,
             isDead := true,
             lastDamageTime := t1 } : HealthComponent))
      else
        (false,
          { h with
            currentHealth := h.currentHealth - d1,
            lastDamageTime := t1 })) := by
  unfold HealthComponent.takeDamage
  rw [if_neg (not_lt.mpr happlied)]

theorem takeDamage_applied_lastDamageTime (h : HealthComponent) (d1 t1 : ℚ)
    (happlied : h.invulnerabilityTime ≤ t1 - h.lastDamageTime) :
    (h.takeDamage d1 t1).2.lastDamageTime = t1 := by
  rw [takeDamage_applied h d1 t1 happlied]
  split <;> rfl

theorem takeDamage_applied_invulnerability (h : HealthComponent) (d1 t1 : ℚ)
    (happlied : h.invulnerabilityTime ≤ t1 - h.lastDamageTime) :
    (h.takeDamage d1 t1).2.invulnerabilityTime = h.invulnerabilityTime := by
  rw [takeDamage_applied h d1 t1 happlied]
  split <;> rfl

/-- C9: a `takeDamage` call made less than `invulnerabilityTime` after
the previous damage-applying call returns false and leaves the component
(currentHealth, isDead, lastDamageTime, everything) completely
unchanged; consequently any sequence of further damage attempts inside
the window, such as 1-second zone-damage ticks interleaved with other
sources, leaves the component unchanged — health drops at most once per
invulnerability window. -/
theorem invulnerability_window_noop (h : HealthComponent) (d1 t1 : ℚ)
    (happlied : h.invulnerabilityTime ≤ t1 - h.lastDamageTime) :
    (∀ d2 t2, t2 - t1 < h.invulnerabilityTime →
      (h.takeDamage d1 t1).2.takeDamage d2 t2 = (false, (h.takeDamage d1 t1).2)) ∧
    (∀ l : List (ℚ × ℚ), (∀ p ∈ l, p.2 - t1 < h.invulnerabilityTime) →
      l.foldl (fun acc p => (acc.takeDamage p.1 p.2).2) (h.takeDamage d1 t1).2 =
        (h.takeDamage d1 t1).2) := by
  have hlast := takeDamage_applied_lastDamageTime h d1 t1 happlied
  have hinv := takeDamage_applied_invulnerability h d1 t1 happlied
  constructor
  · intro d2 t2 hwin
    refine takeDamage_blocked _ d2 t2 ?_
    rw [hlast, hinv]
    exact hwin
  · intro l hl
    induction l with
    | nil => rfl
    | cons p rest ih =>
      rw [List.foldl_cons]
      rw [takeDamage_blocked _ p.1 p.2 (by
        rw [hlast, hinv]
        exact hl p (List.mem_cons_self p rest))]
      exact ih (fun q hq => hl q (List.mem_cons_of_mem p hq))

def wit9health : HealthComponent :=
  { HealthComponent.new 100 with lastDamageTime := 100 }

theorem invulnerability_window_noop_witness :
    (wit9health.invulnerabilityTime ≤ (1000 : ℚ) - wit9health.lastDamageTime) ∧
    (wit9health.takeDamage 30 1000).2.takeDamage 30 1400 =
      (false, (wit9health.takeDamage 30 1000).2) ∧
    (wit9health.takeDamage 30 1000).2.currentHealth = 70 := by
  have h := invulnerability_window_noop wit9health 30 1000 (by
    show (500 : ℚ) ≤ 1000 - 100
    norm_num)
  refine ⟨by show (500 : ℚ) ≤ 1000 - 100; norm_num,
    h.1 30 1400 (by show (1400 : ℚ) - 1000 < 500; norm_num), ?_⟩
  have h1 : wit9health.takeDamage 30 1000 = (false, ⟨70, 100, false, 1000, 500⟩) := by
    unfold wit9health HealthComponent.new HealthComponent.takeDamage
    norm_num
  rw [h1]

/-! ### C6: weapon fire-rate gating -/

theorem canFire_eq (wc : WeaponComponent) (t : ℚ) :
    wc.canFire t = true ↔
      (wc.isReloading = false ∧ 0 < wc.currentAmmo ∧
        1000 / wc.stats.fireRate ≤ t - wc.lastFireTime) := by
  unfold WeaponComponent.canFire
  simp [Bool.and_eq_true, Bool.not_eq_true', decide_eq_true_eq, and_assoc]

theorem fire_of_canFire (wc : WeaponComponent) (t : ℚ) (h : wc.canFire t = true) :
    wc.fire t =
      (if (wc.currentAmmo - 1) == 0 then
        (true, WeaponComponent.startReload
          { wc with currentAmmo := wc.currentAmmo - 1, lastFireTime := t } t)
      else (true, { wc with currentAmmo := wc.currentAmmo - 1, lastFireTime := t })) := by
  unfold WeaponComponent.fire
  rw [if_neg (by rw [h]; exact (by decide))]

theorem fire_blocked (wc : WeaponComponent) (t : ℚ) (h : wc.canFire t = false) :
    wc.fire t = (false, wc) := by
  unfold WeaponComponent.fire
  rw [if_pos (by rw [h]; rfl)]

theorem startReload_stats (x : WeaponComponent) (t : ℚ) :
    (x.startReload t).stats = x.stats := by
  unfold WeaponComponent.startReload
  split <;> rfl

theorem startReload_lastFireTime (x : WeaponComponent) (t : ℚ) :
    (x.startReload t).lastFireTime = x.lastFireTime := by
  unfold WeaponComponent.startReload
  split <;> rfl

theorem startReload_currentAmmo (x : WeaponComponent) (t : ℚ) :
    (x.startReload t).currentAmmo = x.currentAmmo := by
  unfold WeaponComponent.startReload
  split <;> rfl

theorem startReload_sets (x : WeaponComponent) (t : ℚ)
    (hnr : x.isReloading = false)
    (hne : (x.currentAmmo == x.stats.magazineSize) = false) :
    (x.startReload t).isReloading = true := by
  unfold WeaponComponent.startReload
  rw [hnr, hne]
  rfl

/-- All the facts about a successful `fire` call the claims use. -/
theorem fire_success_fields (wc : WeaponComponent) (t : ℚ)
    (h : wc.canFire t = true) :
    (wc.fire t).2.stats = wc.stats ∧
    (wc.fire t).2.lastFireTime = t ∧
    wc.currentAmmo = (wc.fire t).2.currentAmmo + 1 ∧
    (wc.fire t).1 = true ∧
    (2 ≤ wc.currentAmmo → (wc.fire t).2.isReloading = wc.isReloading) ∧
    (wc.currentAmmo = 1 → 0 < wc.stats.magazineSize →
      (wc.fire t).2.isReloading = true) := by
  obtain ⟨hnr, hpos, hgate⟩ := (canFire_eq wc t).mp h
  rw [fire_of_canFire wc t h]
  cases hbe : ((wc.currentAmmo - 1) == 0) with
  | true =>
    rw [if_pos rfl]
    have ham : wc.currentAmmo = 1 := by
      have h0 : wc.currentAmmo - 1 = 0 := beq_iff_eq.mp hbe
      omega
    refine ⟨startReload_stats _ t, ?_, ?_, rfl, ?_, ?_⟩
    · rw [startReload_lastFireTime]
    · rw [startReload_currentAmmo]
      show wc.currentAmmo = wc.currentAmmo - 1 + 1
      omega
    · intro h2
      exact absurd ham (by omega)
    · intro h1 hmag
      refine startReload_sets _ t hnr ?_
      show ((wc.currentAmmo - 1) == wc.stats.magazineSize) = false
      have h0 : wc.currentAmmo - 1 = 0 := beq_iff_eq.mp hbe
      rw [h0]
      cases hm : (0 == wc.stats.magazineSize) with
      | false => rfl
      | true =>
        exfalso
        have := beq_iff_eq.mp hm
        omega
  | false =>
    rw [if_neg (by exact (by decide : ¬(false = true)))]
    have hne : wc.currentAmmo - 1 ≠ 0 := by
      intro h0
      rw [show ((wc.currentAmmo - 1) == 0) = true from by rw [h0]; rfl] at hbe
      cases hbe
    refine ⟨rfl, rfl, ?_, rfl, fun _ => rfl, fun h1 _ => absurd (by omega) hne⟩
    show wc.currentAmmo = wc.currentAmmo - 1 + 1
    omega

/-- C6 counterexample: a pistol (`fireRate = 2`) with positive ammo
(one round) and not reloading: the first `fire` succeeds, and the second
`fire` 1000 ms ≥ 500 ms later returns false — the first shot emptied the
magazine and auto-started a reload, which blocks the second shot.  So
"a second fire(t2) with t2 - t1 >= 500 ms returns true" fails with
`currentAmmo = 1`. -/
theorem weapon_fire_single_round_cex :
    (wit6weapon.stats.fireRate = 2 ∧ 0 < wit6weapon.currentAmmo ∧
      wit6weapon.isReloading = false) ∧
    (wit6weapon.fire 1000).1 = true ∧
    ((500 : ℚ) ≤ 2000 - 1000) ∧
    ((wit6weapon.fire 1000).2.fire 2000).1 = false := by
  have hcf : wit6weapon.canFire 1000 = true := by
    refine (canFire_eq _ _).mpr ⟨rfl, by decide, ?_⟩
    show (1000 : ℚ) / 2 ≤ 1000 - 0
    norm_num
  have hfields := fire_success_fields wit6weapon 1000 hcf
  have hrel : (wit6weapon.fire 1000).2.isReloading = true :=
    hfields.2.2.2.2.2 rfl (by decide)
  refine ⟨⟨rfl, by decide, rfl⟩, hfields.2.2.2.1, by norm_num, ?_⟩
  have hcf2 : (wit6weapon.fire 1000).2.canFire 2000 = false := by
    unfold WeaponComponent.canFire
    rw [hrel]
    rfl
  rw [fire_blocked _ 2000 hcf2]

/-- C6 (amended): for a weapon with `fireRate = 2` after a successful
`fire(t1)`: a second `fire(t2)` with `t2 - t1 < 500` returns false and
leaves the weapon (ammo included) unchanged; a second `fire(t2)` with
`t2 - t1 ≥ 500` returns true *provided the magazine held at least two
rounds* (with exactly one round the first shot auto-starts a reload and
the second is blocked — see the counterexample); each successful fire
decrements `currentAmmo` by exactly one; a successful fire implies the
general gate `now - lastFireTime ≥ 1000 / fireRate` (with ammo available
and no reload in progress); and firing the last round auto-triggers a
reload whenever the magazine size is positive. -/
theorem weapon_fire_rate (wc : WeaponComponent) (t1 : ℚ)
    (hrate : wc.stats.fireRate = 2)
    (hfirst : (wc.fire t1).1 = true) :
    (∀ t2, t2 - t1 < 500 → (wc.fire t1).2.fire t2 = (false, (wc.fire t1).2)) ∧
    (∀ t2, 2 ≤ wc.currentAmmo → 500 ≤ t2 - t1 → ((wc.fire t1).2.fire t2).1 = true) ∧
    wc.currentAmmo = (wc.fire t1).2.currentAmmo + 1 ∧
    (wc.isReloading = false ∧ 0 < wc.currentAmmo ∧
      1000 / wc.stats.fireRate ≤ t1 - wc.lastFireTime) ∧
    (wc.currentAmmo = 1 → 0 < wc.stats.magazineSize →
      (wc.fire t1).2.isReloading = true) := by
  have hcf : wc.canFire t1 = true := by
    cases hx : wc.canFire t1 with
    | true => rfl
    | false =>
      rw [fire_blocked wc t1 hx] at hfirst
      cases hfirst
  obtain ⟨hstats, hlast, hdec, -, hrelkeep, hreload⟩ := fire_success_fields wc t1 hcf
  obtain ⟨hnr, hpos, hgate⟩ := (canFire_eq wc t1).mp hcf
  have hhalf : (1000 : ℚ) / 2 = 500 := by norm_num
  refine ⟨?_, ?_, hdec, ⟨hnr, hpos, hgate⟩, hreload⟩
  · intro t2 h500
    have hcf2 : (wc.fire t1).2.canFire t2 = false := by
      cases hx : (wc.fire t1).2.canFire t2 with
      | false => rfl
      | true =>
        exfalso
        obtain ⟨-, -, hg2⟩ := (canFire_eq _ _).mp hx
        rw [hstats, hrate, hlast, hhalf] at hg2
        exact absurd h500 (not_lt.mpr hg2)
    exact fire_blocked _ t2 hcf2
  · intro t2 hammo h500
    have hrel : (wc.fire t1).2.isReloading = false := by
      rw [hrelkeep hammo]
      exact hnr
    have hcf2 : (wc.fire t1).2.canFire t2 = true := by
      refine (canFire_eq _ _).mpr ⟨hrel, by omega, ?_⟩
      rw [hstats, hrate, hlast, hhalf]
      exact h500
    exact (fire_success_fields _ t2 hcf2).2.2.2.1

theorem weapon_fire_rate_witness :
    wit6pistol.stats.fireRate = 2 ∧
    (wit6pistol.fire 1000).1 = true ∧
    (wit6pistol.fire 1000).2.fire 1400 = (false, (wit6pistol.fire 1000).2) ∧
    ((wit6pistol.fire 1000).2.fire 1600).1 = true ∧
    wit6pistol.currentAmmo = (wit6pistol.fire 1000).2.currentAmmo + 1 := by
  have hcf : wit6pistol.canFire 1000 = true := by
    refine (canFire_eq _ _).mpr ⟨rfl, by decide, ?_⟩
    show (1000 : ℚ) / 2 ≤ 1000 - 0
    norm_num
  have hfirst : (wit6pistol.fire 1000).1 = true :=
    (fire_success_fields wit6pistol 1000 hcf).2.2.2.1
  have h := weapon_fire_rate wit6pistol 1000 rfl hfirst
  exact ⟨rfl, hfirst, h.1 1400 (by norm_num), h.2.1 1600 (by decide) (by norm_num),
    h.2.2.1⟩

/-! ### C7: the physics ground clamp -/

/-- `physicsStep` with the intermediate assignments inlined. -/
theorem physicsStep_eq (dt : ℚ) (b : PhysBody) :
    physicsStep dt b =
      (if b.isStatic = true then b
      else
        if b.position.y + (b.velocity.y + gravity * dt) * dt < 0 then
          { position := ⟨b.position.x, 0, b.position.z⟩,
            velocity := ⟨(b.velocity.x + b.acceleration.x * dt) * (49/50), 0,
              (b.velocity.z + b.acceleration.z * dt) * (49/50)⟩,
            acceleration := ⟨b.acceleration.x, gravity, b.acceleration.z⟩,
            isStatic := b.isStatic }
        else
          { position := ⟨b.position.x + (b.velocity.x + b.acceleration.x * dt) * dt,
              b.position.y + (b.velocity.y + gravity * dt) * dt,
              b.position.z + (b.velocity.z + b.acceleration.z * dt) * dt⟩,
            velocity := ⟨(b.velocity.x + b.acceleration.x * dt) * (49/50),
              b.velocity.y + gravity * dt,
              (b.velocity.z + b.acceleration.z * dt) * (49/50)⟩,
            acceleration := ⟨b.acceleration.x, gravity, b.acceleration.z⟩,
            isStatic := b.isStatic }) := rfl

theorem gravity_neg : gravity < 0 := by
  norm_num [gravity]

theorem physicsStep_isStatic (dt : ℚ) (b : PhysBody) :
    (physicsStep dt b).isStatic = b.isStatic := by
  rw [physicsStep_eq]
  split
  · rfl
  · split <;> rfl

theorem physicsStep_y_nonneg (dt : ℚ) (b : PhysBody)
    (hstatic : b.isStatic = false) :
    0 ≤ (physicsStep dt b).position.y := by
  rw [physicsStep_eq, if_neg (by rw [hstatic]; exact (by decide))]
  by_cases hclamp : b.position.y + (b.velocity.y + gravity * dt) * dt < 0
  · rw [if_pos hclamp]
  · rw [if_neg hclamp]
    exact not_lt.mp hclamp

theorem physicsStep_grounded (dt : ℚ) (b : PhysBody) (hdt : 0 < dt)
    (hstatic : b.isStatic = false) (hg : grounded b) :
    grounded (physicsStep dt b) := by
  obtain ⟨hy, hvy⟩ := hg
  rw [physicsStep_eq, if_neg (by rw [hstatic]; exact (by decide))]
  have hneg : b.position.y + (b.velocity.y + gravity * dt) * dt < 0 := by
    rw [hy, hvy]
    have h1 : (0 : ℚ) + (0 + gravity * dt) * dt = gravity * dt * dt := by ring
    rw [h1]
    exact mul_neg_of_neg_of_pos (mul_neg_of_neg_of_pos gravity_neg hdt) hdt
  rw [if_pos hneg]
  exact ⟨rfl, rfl⟩

theorem physicsStep_iterate_grounded (dt : ℚ) (b : PhysBody) (hdt : 0 < dt)
    (hstatic : b.isStatic = false) (hg : grounded b) :
    ∀ m, grounded ((physicsStep dt)^[m] b) ∧
      ((physicsStep dt)^[m] b).isStatic = false := by
  intro m
  induction m with
  | zero => exact ⟨hg, hstatic⟩
  | succ k ih =>
    rw [Function.iterate_succ_apply']
    exact ⟨physicsStep_grounded dt _ hdt ih.2 ih.1,
      by rw [physicsStep_isStatic]; exact ih.2⟩

/-- Descent: once the vertical velocity is at least one gravity impulse
downward, the body grounds within `k + 1` steps when its height is at
most `k` times the per-step minimum descent. -/
theorem physicsStep_descent (dt : ℚ) (hdt : 0 < dt) :
    ∀ (k : Nat) (b : PhysBody), b.isStatic = false →
      b.velocity.y ≤ gravity * dt →
      b.position.y ≤ (k : ℚ) * (-gravity * dt ^ 2) →
      grounded ((physicsStep dt)^[k + 1] b) := by
  intro k
  induction k with
  | zero =>
    intro b hstatic hvy hy
    rw [Function.iterate_one]
    rw [physicsStep_eq, if_neg (by rw [hstatic]; exact (by decide))]
    have hneg : b.position.y + (b.velocity.y + gravity * dt) * dt < 0 := by
      have hv1 : b.velocity.y + gravity * dt ≤ 2 * (gravity * dt) := by nlinarith
      have hgdt : gravity * dt < 0 := mul_neg_of_neg_of_pos gravity_neg hdt
      have hy0 : b.position.y ≤ 0 := by
        simpa using hy
      nlinarith
    rw [if_pos hneg]
    exact ⟨rfl, rfl⟩
  | succ k ih =>
    intro b hstatic hvy hy
    have hgdt : gravity * dt < 0 := mul_neg_of_neg_of_pos gravity_neg hdt
    rw [show k + 1 + 1 = (k + 1) + 1 from rfl, Function.iterate_succ_apply]
    by_cases hclamp : b.position.y + (b.velocity.y + gravity * dt) * dt < 0
    · have hg1 : grounded (physicsStep dt b) := by
        rw [physicsStep_eq, if_neg (by rw [hstatic]; exact (by decide)),
          if_pos hclamp]
        exact ⟨rfl, rfl⟩
      exact (physicsStep_iterate_grounded dt (physicsStep dt b) hdt
        (by rw [physicsStep_isStatic]; exact hstatic) hg1 (k + 1)).1
    · refine ih (physicsStep dt b) (by rw [physicsStep_isStatic]; exact hstatic) ?_ ?_
      · rw [physicsStep_eq, if_neg (by rw [hstatic]; exact (by decide)),
          if_neg hclamp]
        show b.velocity.y + gravity * dt ≤ gravity * dt
        nlinarith
      · rw [physicsStep_eq, if_neg (by rw [hstatic]; exact (by decide)),
          if_neg hclamp]
        show b.position.y + (b.velocity.y + gravity * dt) * dt ≤
          (k : ℚ) * (-gravity * dt ^ 2)
        have hv1 : b.velocity.y + gravity * dt ≤ gravity * dt := by nlinarith
        have hstep : (b.velocity.y + gravity * dt) * dt ≤ gravity * dt ^ 2 := by
          nlinarith
        have hcast : ((k + 1 : Nat) : ℚ) = (k : ℚ) + 1 := by push_cast; ring
        rw [hcast] at hy
        nlinarith

/-- C7: a non-static body starting with non-upward vertical velocity and
positive height reaches, after finitely many `PhysicsSystem` update
steps, the grounded state `position.y = 0 ∧ velocity.y = 0`; the
grounded state persists under all further updates, and `position.y` is
never negative after any update. -/
theorem physics_ground_clamp (dt : ℚ) (b : PhysBody)
    (hdt : 0 < dt) (hstatic : b.isStatic = false)
    (hvy : b.velocity.y ≤ 0) (hy : 0 < b.position.y) :
    ∃ n, (∀ m, n ≤ m → grounded ((physicsStep dt)^[m] b)) ∧
      (∀ m, 1 ≤ m → 0 ≤ ((physicsStep dt)^[m] b).position.y) := by
  have hstatic_iter : ∀ m, ((physicsStep dt)^[m] b).isStatic = false := by
    intro m
    induction m with
    | zero => exact hstatic
    | succ k ih =>
      rw [Function.iterate_succ_apply', physicsStep_isStatic]
      exact ih
  have hnonneg : ∀ m, 1 ≤ m → 0 ≤ ((physicsStep dt)^[m] b).position.y := by
    intro m hm
    obtain ⟨k, rfl⟩ := Nat.exists_eq_add_of_le hm
    rw [Nat.add_comm, Function.iterate_succ_apply']
    exact physicsStep_y_nonneg dt _ (hstatic_iter k)
  have hgdt : gravity * dt < 0 := mul_neg_of_neg_of_pos gravity_neg hdt
  have hD : 0 < -gravity * dt ^ 2 := by nlinarith
  set b1 := physicsStep dt b with hb1
  have hstatic1 : b1.isStatic = false := by
    rw [hb1, physicsStep_isStatic]
    exact hstatic
  by_cases hclamp : b.position.y + (b.velocity.y + gravity * dt) * dt < 0
  · have hg1 : grounded b1 := by
      rw [hb1, physicsStep_eq, if_neg (by rw [hstatic]; exact (by decide)),
        if_pos hclamp]
      exact ⟨rfl, rfl⟩
    refine ⟨1, ?_, hnonneg⟩
    intro m hm
    obtain ⟨k, rfl⟩ := Nat.exists_eq_add_of_le hm
    rw [Nat.add_comm, Function.iterate_add_apply, Function.iterate_one]
    exact (physicsStep_iterate_grounded dt b1 hdt hstatic1 hg1 k).1
  · have hvy1 : b1.velocity.y ≤ gravity * dt := by
      rw [hb1, physicsStep_eq, if_neg (by rw [hstatic]; exact (by decide)),
        if_neg hclamp]
      show b.velocity.y + gravity * dt ≤ gravity * dt
      nlinarith
    have hy1 : 0 ≤ b1.position.y := physicsStep_y_nonneg dt b hstatic
    set k := Nat.ceil (b1.position.y / (-gravity * dt ^ 2)) with hk
    have hbound : b1.position.y ≤ (k : ℚ) * (-gravity * dt ^ 2) := by
      have h1 : b1.position.y / (-gravity * dt ^ 2) ≤ (k : ℚ) := Nat.le_ceil _
      exact (div_le_iff₀ hD).mp h1
    have hgk : grounded ((physicsStep dt)^[k + 1] b1) :=
      physicsStep_descent dt hdt k b1 hstatic1 hvy1 hbound
    refine ⟨k + 2, ?_, hnonneg⟩
    intro m hm
    obtain ⟨j, rfl⟩ := Nat.exists_eq_add_of_le hm
    have hsplit : k + 2 + j = j + (k + 1) + 1 := by omega
    rw [hsplit, Function.iterate_succ_apply, Function.iterate_add_apply]
    have hgb1 : ((physicsStep dt)^[k + 1] (physicsStep dt b)) =
        ((physicsStep dt)^[k + 1] b1) := by rw [hb1]
    rw [hgb1]
    refine (physicsStep_iterate_grounded dt _ hdt ?_ hgk j).1
    rw [hb1]
    have : ∀ m, ((physicsStep dt)^[m] b1).isStatic = false := by
      intro m
      induction m with
      | zero => exact hstatic1
      | succ i ih =>
        rw [Function.iterate_succ_apply', physicsStep_isStatic]
        exact ih
    exact this (k + 1)

def wit7body : PhysBody :=
  ⟨⟨0, 5, 0⟩, ⟨0, 0, 0⟩, ⟨0, 0, 0⟩, false⟩

theorem physics_ground_clamp_witness :
    ((0 : ℚ) < 1/60 ∧ wit7body.isStatic = false ∧
      wit7body.velocity.y ≤ 0 ∧ 0 < wit7body.position.y) ∧
    (∃ n, (∀ m, n ≤ m → grounded ((physicsStep (1/60))^[m] wit7body)) ∧
      (∀ m, 1 ≤ m → 0 ≤ ((physicsStep (1/60))^[m] wit7body).position.y)) := by
  refine ⟨⟨by norm_num, rfl, by norm_num [wit7body], by norm_num [wit7body]⟩, ?_⟩
  exact physics_ground_clamp (1/60) wit7body (by norm_num) rfl
    (by norm_num [wit7body]) (by norm_num [wit7body])

/-! ### C8: zone damage and elimination -/

theorem step_of_none (now : ℚ) (l : List BREntity) (k : Nat)
    (h : l.get? k = Option.none) : applyZoneDamageStep now l k = l := by
  unfold applyZoneDamageStep
  rw [h]

theorem step_of_dead (now : ℚ) (l : List BREntity) (k : Nat) (p : BREntity)
    (h : l.get? k = Option.some p) (hd : p.health.isDead = true) :
    applyZoneDamageStep now l k = l := by
  unfold applyZoneDamageStep
  rw [h]
  simp only [hd, if_pos]

theorem step_of_inside (now : ℚ) (l : List BREntity) (k : Nat) (p : BREntity)
    (h : l.get? k = Option.some p) (hd : p.health.isDead = false)
    (hin : outsideZone p.position p.br.state.zone = false) :
    applyZoneDamageStep now l k = l := by
  unfold applyZoneDamageStep
  rw [h]
  simp only [hd, hin]
  rfl

theorem step_of_outside (now : ℚ) (l : List BREntity) (k : Nat) (p : BREntity)
    (h : l.get? k = Option.some p) (hd : p.health.isDead = false)
    (hout : outsideZone p.position p.br.state.zone = true) :
    applyZoneDamageStep now l k =
      (if (p.health.takeDamage p.br.state.zone.damage now).1 = true then
        (l.set k { p with
          health := (p.health.takeDamage p.br.state.zone.damage now).2 }).set k
          { p with
            health := (p.health.takeDamage p.br.state.zone.damage now).2,
            br := handlePlayerElimination p.br
              (l.set k { p with
                health := (p.health.takeDamage p.br.state.zone.damage now).2 }) now }
      else
        l.set k { p with
          health := (p.health.takeDamage p.br.state.zone.damage now).2 }) := by
  unfold applyZoneDamageStep
  rw [h]
  simp only [hd, hout]
  rfl

theorem step_get_ne (now : ℚ) (l : List BREntity) (k j : Nat) (hne : k ≠ j) :
    (applyZoneDamageStep now l k).get? j = l.get? j := by
  cases hg : l.get? k with
  | none => rw [step_of_none now l k hg]
  | some p =>
    by_cases hd : p.health.isDead = true
    · rw [step_of_dead now l k p hg hd]
    · have hd' : p.health.isDead = false := eq_false_of_not_true hd
      by_cases hout : outsideZone p.position p.br.state.zone = true
      · rw [step_of_outside now l k p hg hd' hout]
        by_cases hdie : (p.health.takeDamage p.br.state.zone.damage now).1 = true
        · rw [if_pos hdie, List.get?_set_ne _ _ hne, List.get?_set_ne _ _ hne]
        · rw [if_neg hdie, List.get?_set_ne _ _ hne]
      · rw [step_of_inside now l k p hg hd' (eq_false_of_not_true hout)]

theorem step_get_self (now : ℚ) (l : List BREntity) (k : Nat) (p : BREntity)
    (h : l.get? k = Option.some p) (hd : p.health.isDead = false)
    (hout : outsideZone p.position p.br.state.zone = true) :
    (applyZoneDamageStep now l k).get? k =
      Option.some (if (p.health.takeDamage p.br.state.zone.damage now).1 = true then
        { p with
          health := (p.health.takeDamage p.br.state.zone.damage now).2,
          br := handlePlayerElimination p.br
            (l.set k { p with
              health := (p.health.takeDamage p.br.state.zone.damage now).2 }) now }
      else
        { p with
          health := (p.health.takeDamage p.br.state.zone.damage now).2 }) := by
  have hk : k < l.length := (List.get?_eq_some.mp h).choose
  rw [step_of_outside now l k p h hd hout]
  by_cases hdie : (p.health.takeDamage p.br.state.zone.damage now).1 = true
  · rw [if_pos hdie, if_pos hdie]
    exact List.get?_set_eq_of_lt _ (by rw [List.length_set]; exact hk)
  · rw [if_neg hdie, if_neg hdie]
    exact List.get?_set_eq_of_lt _ hk

theorem fold_steps_get_notin (now : ℚ) (idxs : List Nat) (l : List BREntity)
    (j : Nat) (h : j ∉ idxs) :
    (idxs.foldl (applyZoneDamageStep now) l).get? j = l.get? j := by
  induction idxs generalizing l with
  | nil => rfl
  | cons i rest ih =>
    rw [List.foldl_cons, ih _ (fun hj => h (List.mem_cons_of_mem i hj))]
    exact step_get_ne now l i j (fun hji => h (hji ▸ List.mem_cons_self i rest))

/-- The entity at position `k` after one full zone-damage tick is the
result of the step at `k`, performed on the partially processed list in
which the entity at `k` is still untouched. -/
theorem applyZoneDamage_get (now : ℚ) (l : List BREntity) (k : Nat) (p : BREntity)
    (h : l.get? k = Option.some p) :
    ∃ L : List BREntity, L.get? k = Option.some p ∧
      (applyZoneDamage now l).get? k = (applyZoneDamageStep now L k).get? k := by
  have hk : k < l.length := (List.get?_eq_some.mp h).choose
  refine ⟨(List.range k).foldl (applyZoneDamageStep now) l, ?_, ?_⟩
  · rw [fold_steps_get_notin now _ l k (by simp)]
    exact h
  · unfold applyZoneDamage
    have hlen : l.length = (k + 1) + (l.length - (k + 1)) := by omega
    rw [show List.range l.length =
        (List.range k ++ [k]) ++
          (List.range (l.length - (k + 1))).map ((k + 1) + ·)
      from by rw [← List.range_succ, ← List.range_add, ← hlen]]
    rw [List.foldl_append, List.foldl_append]
    rw [fold_steps_get_notin now _ _ k (by
      intro hmem
      obtain ⟨i, -, hip⟩ := List.mem_map.mp hmem
      omega)]
    rfl

theorem endGame_eq (br : BattleRoyaleComponent) (entities : List BREntity) (now : ℚ) :
    endGame br entities now =
      (match findWinner entities with
      | Option.some winnerId =>
          { br with
            state := { br.state with
              phase := GamePhase.finished,
              endTime := Option.some now,
              winner := Option.some winnerId },
            placement := 1 }
      | Option.none =>
          { br with
            state := { br.state with
              phase := GamePhase.finished,
              endTime := Option.some now } }) := rfl

theorem endGame_phase (br : BattleRoyaleComponent) (entities : List BREntity)
    (now : ℚ) : (endGame br entities now).state.phase = GamePhase.finished := by
  rw [endGame_eq]
  cases findWinner entities <;> rfl

theorem endGame_playersAlive (br : BattleRoyaleComponent) (entities : List BREntity)
    (now : ℚ) :
    (endGame br entities now).state.playersAlive = br.state.playersAlive := by
  rw [endGame_eq]
  cases findWinner entities <;> rfl

theorem endGame_winner_of_some (br : BattleRoyaleComponent)
    (entities : List BREntity) (now : ℚ) (wid : Nat)
    (hw : findWinner entities = Option.some wid) :
    (endGame br entities now).state.winner = Option.some wid := by
  rw [endGame_eq, hw]

theorem handlePlayerElimination_eq (br : BattleRoyaleComponent)
    (entities : List BREntity) (now : ℚ) :
    handlePlayerElimination br entities now =
      (if br.state.playersAlive - 1 ≤ 1 then
        endGame { br with
          placement := br.state.playersAlive,
          state := { br.state with
            playersAlive := br.state.playersAlive - 1 } } entities now
      else
        { br with
          placement := br.state.playersAlive,
          state := { br.state with
            playersAlive := br.state.playersAlive - 1 } }) := rfl

theorem handle_playersAlive (br : BattleRoyaleComponent) (entities : List BREntity)
    (now : ℚ) :
    (handlePlayerElimination br entities now).state.playersAlive =
      br.state.playersAlive - 1 := by
  rw [handlePlayerElimination_eq]
  by_cases h : br.state.playersAlive - 1 ≤ 1
  · rw [if_pos h, endGame_playersAlive]
  · rw [if_neg h]

theorem handle_phase_of_low (br : BattleRoyaleComponent) (entities : List BREntity)
    (now : ℚ) (h : br.state.playersAlive - 1 ≤ 1) :
    (handlePlayerElimination br entities now).state.phase = GamePhase.finished := by
  rw [handlePlayerElimination_eq, if_pos h, endGame_phase]

theorem handle_winner_of_low (br : BattleRoyaleComponent) (entities : List BREntity)
    (now : ℚ) (wid : Nat) (h : br.state.playersAlive - 1 ≤ 1)
    (hw : findWinner entities = Option.some wid) :
    (handlePlayerElimination br entities now).state.winner = Option.some wid := by
  rw [handlePlayerElimination_eq, if_pos h]
  exact endGame_winner_of_some _ entities now wid hw

/-- C8 counterexample: a live player positioned outside `zone.radius`
(zone damage 5 per tick) does *not* take zone damage on a tick that
falls inside the 500 ms invulnerability window left by an earlier hit:
the whole entity, health included, is unchanged by `applyZoneDamage`.
So "takes zone.damage on each zone-damage tick" fails as stated. -/
theorem zone_tick_blocked_cex :
    (wit8blocked.health.isDead = false ∧
      outsideZone wit8blocked.position wit8blocked.br.state.zone = true ∧
      wit8blocked.br.state.zone.damage = 5 ∧
      (1000 : ℚ) - wit8blocked.health.lastDamageTime <
        wit8blocked.health.invulnerabilityTime) ∧
    applyZoneDamage 1000 [wit8blocked] = [wit8blocked] := by
  have hout : outsideZone wit8blocked.position wit8blocked.br.state.zone = true := by
    simp only [outsideZone, wit8blocked, wit8br, wit8brstate, wit8zone,
      Bool.or_eq_true, decide_eq_true_eq]
    norm_num
  have hwin : (1000 : ℚ) - wit8blocked.health.lastDamageTime <
      wit8blocked.health.invulnerabilityTime := by
    show (1000 : ℚ) - 900 < 500
    norm_num
  have hstep : applyZoneDamage 1000 [wit8blocked] =
      applyZoneDamageStep 1000 [wit8blocked] 0 := rfl
  have hblocked := takeDamage_blocked wit8blocked.health
    wit8blocked.br.state.zone.damage 1000 hwin
  rw [hstep, step_of_outside 1000 [wit8blocked] 0 wit8blocked rfl rfl hout]
  rw [if_neg (by rw [hblocked]; exact (by decide))]
  rw [hblocked]
  refine ⟨⟨rfl, hout, rfl, hwin⟩, rfl⟩

/-- C8 (amended): on a zone-damage tick at time `now`, a live player
outside `zone.radius` whose invulnerability window has elapsed (which is
automatic for consecutive zone ticks, since the tick interval 1000 ms
exceeds the 500 ms window, but can fail after a recent hit from another
source — see the counterexample) takes exactly `zone.damage` off its
health (clamped at 0); if that kills the player, `playersAlive` on that
player's own component is decremented, and if at most one player then
remains, the phase on that component becomes `finished`; in the
two-player case the surviving non-dead player is recorded as winner. -/
theorem zone_damage_elimination (now : ℚ) :
    (∀ (l : List BREntity) (k : Nat) (p : BREntity),
      l.get? k = Option.some p →
      p.health.isDead = false →
      outsideZone p.position p.br.state.zone = true →
      p.health.invulnerabilityTime ≤ now - p.health.lastDamageTime →
      ∃ e', (applyZoneDamage now l).get? k = Option.some e' ∧
        e'.id = p.id ∧
        (¬(p.health.currentHealth - p.br.state.zone.damage ≤ 0) →
          e'.health.currentHealth =
            p.health.currentHealth - p.br.state.zone.damage ∧
          e'.health.isDead = p.health.isDead ∧ e'.br = p.br) ∧
        (p.health.currentHealth - p.br.state.zone.damage ≤ 0 →
          e'.health.currentHealth = 0 ∧ e'.health.isDead = true ∧
          e'.br.state.playersAlive = p.br.state.playersAlive - 1 ∧
          (p.br.state.playersAlive - 1 ≤ 1 →
            e'.br.state.phase = GamePhase.finished))) ∧
    (∀ p q : BREntity,
      p.health.isDead = false →
      outsideZone p.position p.br.state.zone = true →
      p.health.invulnerabilityTime ≤ now - p.health.lastDamageTime →
      p.health.currentHealth - p.br.state.zone.damage ≤ 0 →
      p.br.state.playersAlive - 1 ≤ 1 →
      q.health.isDead = false →
      outsideZone q.position q.br.state.zone = false →
      ∃ p', (applyZoneDamage now [p, q]).get? 0 = Option.some p' ∧
        p'.br.state.phase = GamePhase.finished ∧
        p'.br.state.winner = Option.some q.id ∧
        (applyZoneDamage now [p, q]).get? 1 = Option.some q) := by
  have hdead : ∀ (p : BREntity),
      p.health.invulnerabilityTime ≤ now - p.health.lastDamageTime →
      p.health.currentHealth - p.br.state.zone.damage ≤ 0 →
      p.health.takeDamage p.br.state.zone.damage now =
        (true, { p.health with
          currentHealth := 0,
          isDead := true,
          lastDamageTime := now }) := by
    intro p hinv hdie
    rw [takeDamage_applied p.health _ now hinv, if_pos hdie]
  have halive : ∀ (p : BREntity),
      p.health.invulnerabilityTime ≤ now - p.health.lastDamageTime →
      ¬(p.health.currentHealth - p.br.state.zone.damage ≤ 0) →
      p.health.takeDamage p.br.state.zone.damage now =
        (false, { p.health with
          currentHealth := p.health.currentHealth - p.br.state.zone.damage,
          lastDamageTime := now }) := by
    intro p hinv hlive
    rw [takeDamage_applied p.health _ now hinv, if_neg hlive]
  constructor
  · intro l k p hget hd hout hinv
    obtain ⟨L, hLget, hLeq⟩ := applyZoneDamage_get now l k p hget
    rw [hLeq, step_get_self now L k p hLget hd hout]
    by_cases hdie : p.health.currentHealth - p.br.state.zone.damage ≤ 0
    · rw [if_pos (by rw [hdead p hinv hdie])]
      refine ⟨_, rfl, rfl, fun hcon => absurd hdie hcon, fun _ => ?_⟩
      rw [hdead p hinv hdie]
      refine ⟨rfl, rfl, handle_playersAlive _ _ now, fun hlow =>
        handle_phase_of_low _ _ now hlow⟩
    · rw [if_neg (by rw [halive p hinv hdie]; exact fun hcon => Bool.noConfusion hcon)]
      refine ⟨_, rfl, rfl, fun _ => ?_, fun hcon => absurd hcon hdie⟩
      rw [halive p hinv hdie]
      exact ⟨rfl, rfl, rfl⟩
  · intro p q hd hout hinv hdie hlow hqd hqin
    have hpd := hdead p hinv hdie
    have h2 : applyZoneDamage now [p, q] =
        applyZoneDamageStep now (applyZoneDamageStep now [p, q] 0) 1 := rfl
    have hstep0 : applyZoneDamageStep now [p, q] 0 =
        [{ p with
            health := (p.health.takeDamage p.br.state.zone.damage now).2,
            br := handlePlayerElimination p.br
              [{ p with
                health := (p.health.takeDamage p.br.state.zone.damage now).2 }, q]
              now }, q] := by
      rw [step_of_outside now [p, q] 0 p rfl hd hout]
      rw [if_pos (by rw [hpd])]
      rfl
    have hwinner : findWinner
        [{ p with
          health := (p.health.takeDamage p.br.state.zone.damage now).2 }, q] =
        Option.some q.id := by
      unfold findWinner
      rw [List.find?_cons_of_neg _ (by rw [hpd]; exact fun hcon => Bool.noConfusion hcon)]
      rw [List.find?_cons_of_pos _ (by rw [hqd]; rfl)]
      rfl
    rw [h2, hstep0]
    rw [step_of_inside now
      [{ p with
          health := (p.health.takeDamage p.br.state.zone.damage now).2,
          br := handlePlayerElimination p.br
            [{ p with
              health := (p.health.takeDamage p.br.state.zone.damage now).2 }, q]
            now }, q] 1 q rfl hqd hqin]
    refine ⟨_, rfl, ?_, ?_, rfl⟩
    · exact handle_phase_of_low _ _ now hlow
    · exact handle_winner_of_low _ _ now q.id hlow hwinner

/-- Witness for claim C8: at time 1000 with the invulnerability window long
elapsed, the zone tick kills `wit8dying` (3 health vs. 5 zone damage,
outside the radius-10 zone at distance 20) and the game finishes with
`wit8alive` (inside the zone) declared winner. -/
theorem zone_damage_elimination_witness :
    ∃ p', (applyZoneDamage 1000 [wit8dying, wit8alive]).get? 0 =
        Option.some p' ∧
      p'.br.state.phase = GamePhase.finished ∧
      p'.br.state.winner = Option.some wit8alive.id ∧
      (applyZoneDamage 1000 [wit8dying, wit8alive]).get? 1 =
        Option.some wit8alive :=
  (zone_damage_elimination 1000).2 wit8dying wit8alive
    rfl
    (by simp only [outsideZone, wit8dying, wit8br, wit8brstate, wit8zone,
          Bool.or_eq_true, decide_eq_true_eq]
        norm_num)
    (by norm_num [wit8dying, HealthComponent.new])
    (by norm_num [wit8dying, wit8br, wit8brstate, wit8zone,
          HealthComponent.new])
    (by norm_num [wit8dying, wit8br, wit8brstate])
    rfl
    (by simp only [outsideZone, wit8alive, wit8br, wit8brstate, wit8zone,
          Bool.or_eq_false_iff, decide_eq_false_iff_not]
        norm_num)

end N1
